import Mathlib

/-!
Verification development for the FPL hindsight optimiser
(`set_and_forget/basic_set_and_forget_optimisation.py`).

The Python code operates on a pandas DataFrame whose rows are players.  We
embed a row as the structure `Row` below; a DataFrame is a `List Row` in row
order (row order matters: the simulation reads the captain via `iloc[0]` and
draws bench substitutes in row order).  Per-gameweek points and minutes
columns (`gw_{g}_points`, `gw_{g}_minutes`) are embedded as functions from the
gameweek number.
-/

inductive Pos where
  | GK
  | DEF
  | MID
  | FWD
deriving DecidableEq, Repr

structure Row where
  id : Nat
  positions : Pos
  short_name : String
  start_cost : Int
  total_points : Int
  gw_points : Nat → Int
  gw_minutes : Nat → Nat
  in_lineup : Bool
  on_bench : Bool
  is_captain : Bool
  is_vice_captain : Bool

/-- One substitution record, embedding the Python dict
`\x7b'sub_out:': player, 'sub_in': substitute_id\x7d`. -/
structure SubRec where
  sub_out : Nat
  sub_in : Nat
deriving DecidableEq, Repr

/-- Embeds the result dictionary returned by `single_gw_simulation` on the
normal path (points, subs_made, did_captain_play, vice_play_in_captains_place). -/
structure GwResult where
  points : Int
  subs_made : List SubRec
  did_captain_play : Bool
  vice_play_in_captains_place : Bool
deriving DecidableEq, Repr

/-- The Python `single_gw_simulation` returns a bare integer `0` on the
early-return path for a gameweek beyond the current one, and a result
dictionary otherwise; we keep the two shapes apart. -/
inductive GwOutcome where
  | future (points : Int)
  | played (r : GwResult)
deriving DecidableEq, Repr

/-- Points carried by either outcome shape. -/
def GwOutcome.pts : GwOutcome → Int
  | .future p => p
  | .played r => r.points

/-- Substitutions carried by either outcome shape (the early return carries
none). -/
def GwOutcome.subs : GwOutcome → List SubRec
  | .future _ => []
  | .played r => r.subs_made

/-- The ids of a frame, in row order. -/
def ids (df : List Row) : List Nat := df.map Row.id

/-- A well-formed frame has pairwise-distinct player ids. -/
def idsNodup (df : List Row) : Prop := (ids df).Nodup

/-- Position of the first row carrying the given id, embedding
`df[(df['id'] == player)]['positions'].iloc[0]`. -/
def posOf (df : List Row) (i : Nat) : Option Pos :=
  (df.find? (fun r => decide (r.id = i))).map Row.positions

/-- Gameweek points of the first row carrying the given id, embedding
`df[(df['id'] == substitute_id)][f'gw_\x7bgw\x7d_points'].iloc[0]`.  The ids this is
applied to always come from the frame itself, so the default branch is
unreachable in the simulation. -/
def ptsOf (df : List Row) (gw : Nat) (i : Nat) : Int :=
  match df.find? (fun r => decide (r.id = i)) with
  | some r => r.gw_points gw
  | none => 0

/-- Embeds `get_bench_player(df, bench_ids, pos)`.  `none` for `pos`
embeds the Python `'*'` wildcard.  A `'GK'` argument would fall through every
branch of the Python function and return `None`; it is never used. -/
def get_bench_player (df : List Row) (bench_ids : List Nat) (pos : Option Pos) :
    Option Nat :=
  match bench_ids with
  | [] => none
  | b0 :: _ =>
    match pos with
    | none => some b0
    | some Pos.GK => none
    | some p =>
      bench_ids.find? (fun i =>
        ((df.filter (fun r => decide (r.positions = p))).map Row.id).contains i)

/-- Mutable state of the substitution loop in `single_gw_simulation`:
running points, remaining outfield bench ids, the bench-goalkeeper slot
(consumed when set to `none`), the three position counters initialised from
the lineup composition, and the ordered substitution list. -/
structure SimState where
  points : Int
  bench_ids : List Nat
  keeper : Option Nat
  d : Nat
  m : Nat
  f : Nat
  subs : List SubRec

/-- The any-position branch of the substitution loop: take the first
unconsumed bench player regardless of position and bump the counter of the
substitute's actual position. -/
def anyPosSub (gw : Nat) (df : List Row) (st : SimState) (player : Nat) :
    SimState :=
  match get_bench_player df st.bench_ids none with
  | none => st
  | some s =>
    let st' : SimState :=
      { st with
        bench_ids := st.bench_ids.erase s
        points := st.points + ptsOf df gw s
        subs := st.subs ++ [⟨player, s⟩] }
    match posOf df s with
    | some Pos.DEF => { st' with d := st'.d + 1 }
    | some Pos.MID => { st' with m := st'.m + 1 }
    | some Pos.FWD => { st' with f := st'.f + 1 }
    | _ => st'

/-- The same-position branch of the substitution loop: take the first
unconsumed bench player of the given position, if any; otherwise leave the
state untouched (no fallback to other positions). -/
def samePosSub (gw : Nat) (df : List Row) (st : SimState) (player : Nat)
    (p : Pos) (bump : SimState → SimState) : SimState :=
  match get_bench_player df st.bench_ids (some p) with
  | none => st
  | some s =>
    bump { st with
      bench_ids := st.bench_ids.erase s
      points := st.points + ptsOf df gw s
      subs := st.subs ++ [⟨player, s⟩] }

/-- One iteration of `for player in player_not_played` in
`single_gw_simulation`.  The Python guard `if bench_player_ids is not None`
is always true (a list is never `None`) and is dropped.  The final block
handles the goalkeeper slot exactly as the source: only when the slot is
still available and the processed player is a goalkeeper. -/
def sub_step (gw : Nat) (df : List Row) (st : SimState) (player : Nat) :
    SimState :=
  let st1 : SimState :=
    match posOf df player with
    | some Pos.DEF =>
      if st.d ≤ 3 then
        samePosSub gw df st player Pos.DEF (fun s => { s with d := s.d + 1 })
      else anyPosSub gw df st player
    | some Pos.MID =>
      if st.m ≤ 2 then
        samePosSub gw df st player Pos.MID (fun s => { s with m := s.m + 1 })
      else anyPosSub gw df st player
    | some Pos.FWD =>
      if st.f ≤ 1 then
        samePosSub gw df st player Pos.FWD (fun s => { s with f := s.f + 1 })
      else anyPosSub gw df st player
    | _ => st
  match st1.keeper with
  | none => st1
  | some k =>
    match posOf df player with
    | some Pos.GK =>
      { st1 with
        keeper := none
        points := st1.points + ptsOf df gw k
        subs := st1.subs ++ [⟨player, k⟩] }
    | _ => st1

/-- Sum of gameweek points over featured lineup rows, embedding the first
accumulation loop of `single_gw_simulation`. -/
def basePoints (gw : Nat) (df : List Row) : Int :=
  (df.filter (fun r => r.in_lineup)).foldl
    (fun a r => if r.gw_minutes gw > 0 then a + r.gw_points gw else a) 0

/-- Ids of non-featured lineup rows in row order, queued for substitution. -/
def notPlayed (gw : Nat) (df : List Row) : List Nat :=
  ((df.filter (fun r => r.in_lineup)).filter
    (fun r => ¬ r.gw_minutes gw > 0)).map Row.id

/-- The captaincy bonus added on top of the base sum: the captain's points a
second time if the captain featured, the vice-captain's points otherwise. -/
def captaincy_bonus (gw : Nat) (captain vice_captain : Row) : Int :=
  if captain.gw_minutes gw > 0 then captain.gw_points gw
  else vice_captain.gw_points gw

/-- The state the substitution loop of `single_gw_simulation` starts from:
base points plus captaincy bonus as `p`, bench-goalkeeper slot available,
position counters read off the lineup composition, no substitutions yet. -/
def initState (df : List Row) (bench_keeper_id : Nat) (p : Int) :
    SimState :=
  let starting := df.filter (fun r => r.in_lineup)
  { points := p
    bench_ids :=
      (df.filter (fun r => r.on_bench && decide (¬ r.positions = Pos.GK))).map
        Row.id
    keeper := some bench_keeper_id
    d := (starting.filter (fun r => decide (r.positions = Pos.DEF))).length
    m := (starting.filter (fun r => decide (r.positions = Pos.MID))).length
    f := (starting.filter (fun r => decide (r.positions = Pos.FWD))).length
    subs := [] }

/-- The points contributed by the substitution loop alone: the loop run from
a zero points register. -/
def subs_points (gw : Nat) (df : List Row) (bench_keeper_id : Nat) : Int :=
  ((notPlayed gw df).foldl (sub_step gw df) (initState df bench_keeper_id 0)).points

/-- Embeds `single_gw_simulation(gw, df)`.  `current_gw` is the value the
Python closure captured once at the start of `simulate_model_team`.  The
`none` result models the uncaught `IndexError` the source raises when the
frame has no bench goalkeeper, no captain row, or no vice-captain row. -/
def single_gw_simulation (current_gw gw : Nat) (df : List Row) :
    Option GwOutcome :=
  if gw > current_gw then some (.future 0)
  else
    match (df.filter (fun r => r.on_bench && decide (r.positions = Pos.GK))).map
        Row.id with
    | [] => none
    | bench_keeper_id :: _ =>
      match df.find? (fun r => r.is_captain),
            df.find? (fun r => r.is_vice_captain) with
      | some captain, some vice_captain =>
        let fin := (notPlayed gw df).foldl (sub_step gw df)
          (initState df bench_keeper_id
            (basePoints gw df + captaincy_bonus gw captain vice_captain))
        some (.played
          { points := fin.points
            subs_made := fin.subs
            did_captain_play := captain.gw_minutes gw > 0
            vice_play_in_captains_place :=
              ¬ captain.gw_minutes gw > 0 && vice_captain.gw_minutes gw > 0 })
      | _, _ => none

/-- Embeds `simulate_model_team`: one gameweek simulation per completed
gameweek `1..current_gw`, in increasing order. -/
def simulate_model_team (current_gw : Nat) (df : List Row) :
    List (Nat × Option GwOutcome) :=
  (List.range' 1 current_gw).map (fun i => (i, single_gw_simulation current_gw i df))

/-- Season total over the simulated gameweeks, embedding the
`total_points += gw_data['points']` accumulation of the callers; `none` when
any gameweek simulation raises. -/
def seasonTotal (current_gw : Nat) (df : List Row) : Option Int :=
  (List.range' 1 current_gw).foldl
    (fun acc i =>
      match acc, single_gw_simulation current_gw i df with
      | some a, some o => some (a + o.pts)
      | _, _ => none)
    (some 0)

/-- Embeds `itertools.permutations` on a list of ids (fuelled recursion; the
fuel is the list length, so it never runs out). -/
def permsAux : Nat → List Nat → List (List Nat)
  | 0, _ => [[]]
  | fuel + 1, l =>
    (List.range l.length).flatMap (fun i =>
      match l.get? i with
      | none => []
      | some x => (permsAux fuel (l.eraseIdx i)).map (fun t => x :: t))

/-- All permutations of a list of ids, in `itertools.permutations` order. -/
def perms (l : List Nat) : List (List Nat) := permsAux l.length l

/-- One step of `itertools.permutations(l, 2)`: every element paired with the
remaining elements in their original order. -/
def picks : List Nat → List (Nat × List Nat)
  | [] => []
  | x :: xs => (x, xs) :: (picks xs).map (fun p => (p.1, x :: p.2))

/-- Embeds `itertools.permutations(l, 2)`: every ordered pair of distinct
positions, in itertools order. -/
def perms2 (l : List Nat) : List (Nat × Nat) :=
  (picks l).flatMap (fun p => p.2.map (fun y => (p.1, y)))

/-- Embeds the `pd.Categorical(..., team_order, ordered=True)` +
`sort_values` + `reset_index` idiom: rows are rearranged into the order of
their ids in `order`; rows whose id is not in `order` become NaN categories
and are placed last, keeping their relative order.  Faithful for frames with
pairwise-distinct ids and an `order` without duplicates, which is how every
call site uses it. -/
def sortByOrder (df : List Row) (order : List Nat) : List Row :=
  (order.filterMap (fun i => df.find? (fun r => decide (r.id = i))))
    ++ df.filter (fun r => decide (¬ order.contains r.id))

/-- Embeds the per-pair frame set-up inside `best_captain_vice_captain`:
both flag columns are first cleared and then set to `True` on every row whose
id is in the pair — so BOTH members of the pair end up flagged as captain AND
as vice-captain.  This is the faithful embedding of
`captaincy_check_df.loc[captaincy_check_df['id'].isin(captaincy_pair), 'is_captain'] = True`
and the identical `is_vice_captain` assignment. -/
def set_pair_flags (df : List Row) (pr : Nat × Nat) : List Row :=
  df.map (fun r =>
    let inPair : Bool := decide (r.id = pr.1) || decide (r.id = pr.2)
    { r with is_captain := inPair, is_vice_captain := inPair })

/-- Modelled from the spec: Phase 2 is described as rerunning the season
simulation "with c as the sole captain and v as the sole vice-captain".
This definition follows those words — the two flags are set individually and
on one row each.  It exists only to be compared with `set_pair_flags`, the
embedding of the source. -/
def specSetCaptainVice (df : List Row) (c v : Nat) : List Row :=
  df.map (fun r =>
    { r with
      is_captain := decide (r.id = c)
      is_vice_captain := decide (r.id = v) })

/-- The running-best reduction shared by the two search loops: the best
total starts at `0`, the best candidate at `None`, and a candidate replaces
the incumbent only when its total is strictly greater.  A `none` evaluation
(an exception inside one candidate's simulation) aborts the whole search, as
an uncaught exception would in the source. -/
def searchBest {α : Type} (eval : α → Option Int) (cands : List α) :
    Option (Int × Option α) :=
  cands.foldl
    (fun acc c =>
      match acc with
      | none => none
      | some (bt, bo) =>
        match eval c with
        | none => none
        | some t => if t > bt then some (t, some c) else some (bt, bo))
    (some (0, none))

/-- Embeds the inner loop of `find_optimal_weighting_and_ordering` for one
bench weight, after the optimizer has produced the model players and their
role split: every permutation of the three non-goalkeeper bench ids is turned
into a full team order (lineup, then bench goalkeeper, then the permuted
bench), the season is simulated on the re-sorted frame, and the running best
(initial total `0`, strict improvement) is returned. -/
def best_order_search (cgw : Nat) (model_players_df : List Row)
    (lineup_players bench_gk bench_players : List Nat) :
    Option (Int × Option (List Nat)) :=
  searchBest
    (fun team_order => seasonTotal cgw (sortByOrder model_players_df team_order))
    ((perms bench_players).map (fun bo => lineup_players ++ bench_gk ++ bo))

/-- Embeds the captaincy search loop of `best_captain_vice_captain`: every
ordered pair of distinct starting-lineup ids is evaluated by simulating the
season on the frame produced by `set_pair_flags`, under the same running-best
reduction. -/
def best_pair_search (cgw : Nat) (sorted_players_df : List Row) :
    Option (Int × Option (Nat × Nat)) :=
  searchBest
    (fun pr => seasonTotal cgw (set_pair_flags sorted_players_df pr))
    (perms2 ((sorted_players_df.filter (fun r => r.in_lineup)).map Row.id))

/-- Embeds `best_captain_vice_captain` end to end: sort by the given team
order, search all ordered pairs, then build the returned frame with the best
captain and best vice-captain flags set individually (here, unlike in the
evaluation loop, the two flags go to one row each). -/
def best_captain_vice_captain (cgw : Nat) (model_players_df : List Row)
    (team_order : List Nat) : Option (List Row) :=
  let sorted := sortByOrder model_players_df team_order
  match best_pair_search cgw sorted with
  | none => none
  | some (_, bestPr) =>
    some (sorted.map (fun r =>
      { r with
        is_captain := decide (some r.id = bestPr.map Prod.fst)
        is_vice_captain := decide (some r.id = bestPr.map Prod.snd) }))

/-- Modelled from the spec: the brute-force maximum of a list of candidate
totals, used to state the "matches a brute-force maximum" comparisons. -/
def maxOfList : List Int → Option Int
  | [] => none
  | x :: xs => some (xs.foldl max x)

/-- Numeric value of an ASCII digit character. -/
def digitVal (c : Char) : Nat := c.toNat - 48

/-- Embeds `retrieve_base_id`: keep only the digit characters of the
variable name and read them as a decimal number.  `none` models the
`ValueError` that `int('')` raises when the name holds no digit. -/
def retrieve_base_id (decision_var : String) : Option Nat :=
  match decision_var.toList.filter Char.isDigit with
  | [] => none
  | ds => some (ds.foldl (fun a c => a * 10 + digitVal c) 0)

/-- The ASCII character of a decimal digit. -/
def digitChar (n : Nat) : Char := Char.ofNat (48 + n)

/-- Embeds Python's `str(i)` for a non-negative integer: its decimal digit
characters, most significant first. -/
def natDigits (n : Nat) : List Char :=
  if n < 10 then [digitChar n]
  else natDigits (n / 10) ++ [digitChar (n % 10)]
decreasing_by exact Nat.div_lt_self (by omega) (by omega)

/-- Embeds the f-string `f"lineup_{i}"` (and the other three variable-name
patterns): the tag followed by the decimal digits of the id. -/
def lpVarName (tag : String) (i : Nat) : String :=
  tag ++ String.mk (natDigits i)

/-- A 0/1 value as a natural number. -/
def b2n (b : Bool) : Nat := if b then 1 else 0

/-- A 0/1 value as an integer. -/
def b2z (b : Bool) : Int := if b then 1 else 0

/-- Sum of a natural-valued column over the rows of a frame. -/
def sumRowsN (df : List Row) (f : Row → Nat) : Nat :=
  df.foldl (fun a r => a + f r) 0

/-- Sum of an integer-valued column over the rows of a frame. -/
def sumRowsZ (df : List Row) (f : Row → Int) : Int :=
  df.foldl (fun a r => a + f r) 0

/-- The constraint system of the `basic_set_and_forget` optimization model,
stated over a 0/1 assignment of the four decision columns of each row — a
feasible point of the PuLP model is exactly a frame satisfying this
predicate.  Each conjunct embeds one `model += ...` line in source order:
budget, GK, DEF, MID, FWD quotas, team sizes, captaincy cardinalities, the
per-club cap (quantified over every occurring club name, which is what the
loop over `df['short_name'].unique()` produces), and the per-player linking
constraints. -/
def model_constraints (budget : Int) (df : List Row) : Prop :=
  sumRowsZ df (fun r => (b2z r.in_lineup + b2z r.on_bench) * r.start_cost) ≤ budget ∧
  sumRowsN df (fun r => if r.positions = Pos.GK then b2n r.in_lineup else 0) = 1 ∧
  sumRowsN df (fun r => if r.positions = Pos.GK then b2n r.in_lineup + b2n r.on_bench else 0) = 2 ∧
  sumRowsN df (fun r => if r.positions = Pos.DEF then b2n r.in_lineup else 0) ≥ 3 ∧
  sumRowsN df (fun r => if r.positions = Pos.DEF then b2n r.in_lineup + b2n r.on_bench else 0) = 5 ∧
  sumRowsN df (fun r => if r.positions = Pos.MID then b2n r.in_lineup else 0) ≥ 2 ∧
  sumRowsN df (fun r => if r.positions = Pos.MID then b2n r.in_lineup + b2n r.on_bench else 0) = 5 ∧
  sumRowsN df (fun r => if r.positions = Pos.FWD then b2n r.in_lineup else 0) ≥ 1 ∧
  sumRowsN df (fun r => if r.positions = Pos.FWD then b2n r.in_lineup + b2n r.on_bench else 0) = 3 ∧
  sumRowsN df (fun r => b2n r.in_lineup) = 11 ∧
  sumRowsN df (fun r => b2n r.on_bench) = 4 ∧
  sumRowsN df (fun r => b2n r.in_lineup) + sumRowsN df (fun r => b2n r.on_bench) = 15 ∧
  sumRowsN df (fun r => b2n r.is_captain) = 1 ∧
  sumRowsN df (fun r => b2n r.is_vice_captain) = 1 ∧
  (∀ c ∈ df.map Row.short_name,
    sumRowsN df
      (fun r => if r.short_name = c then b2n r.in_lineup + b2n r.on_bench else 0) ≤ 3) ∧
  (∀ r ∈ df,
    b2n r.in_lineup + b2n r.on_bench ≤ 1 ∧
    b2n r.is_captain ≤ b2n r.in_lineup ∧
    b2n r.is_vice_captain ≤ b2n r.in_lineup ∧
    b2n r.is_captain + b2n r.is_vice_captain ≤ 1)

/-- Solver status, mirroring PuLP's `LpStatus` values. -/
inductive LpStatus where
  | Optimal
  | NotSolved
  | Infeasible
  | Unbounded
  | Undefined
deriving DecidableEq, Repr

/-- A solved decision variable: its name and the value the solver left on it
(`none` when unset). -/
structure LpVar where
  name : String
  varValue : Option Int
deriving DecidableEq, Repr

/-- What the external solve step hands back: a status and the four variable
lists with whatever values the solver left. -/
structure SolverResult where
  status : LpStatus
  lineup : List LpVar
  bench : List LpVar
  captaincy : List LpVar
  vice_captaincy : List LpVar

/-- Embeds the tail of `basic_set_and_forget` (lines 111-114): after
`model.solve()` the four variable lists are returned unconditionally — the
solver status is never read, and the return type has no failure case. -/
def basic_set_and_forget_post (solved : SolverResult) :
    List LpVar × List LpVar × List LpVar × List LpVar :=
  (solved.lineup, solved.bench, solved.captaincy, solved.vice_captaincy)

/-- The player-id dictionary built by `retrieve_refactored_model_output`. -/
structure ModelOutput where
  lineup : List Nat
  bench : List Nat
  captaincy : List Nat
  vice_captaincy : List Nat
deriving DecidableEq, Repr

/-- Ids of the variables whose solved value is exactly `1`, in variable
order, embedding the inner loop of `retrieve_refactored_model_output`.  The
impossible digit-free name is skipped (every variable name the model builds
carries the player id's digits). -/
def selectedIds (vars : List LpVar) : List Nat :=
  vars.foldl
    (fun acc v =>
      if v.varValue = some (1 : Int) then
        match retrieve_base_id v.name with
        | some i => acc ++ [i]
        | none => acc
      else acc)
    []

/-- Embeds `retrieve_refactored_model_output`: collect, per role, the ids of
the variables the solver set to `1`, whatever the solver status was. -/
def retrieve_refactored_model_output
    (lineup bench captaincy vice_captaincy : List LpVar) : ModelOutput :=
  { lineup := selectedIds lineup
    bench := selectedIds bench
    captaincy := selectedIds captaincy
    vice_captaincy := selectedIds vice_captaincy }

/-- The four boolean role columns that `retrieve_model_gameweek_history`
assigns onto the caller's frame. -/
structure RoleFlags where
  in_lineup : Bool
  on_bench : Bool
  is_captain : Bool
  is_vice_captain : Bool
deriving DecidableEq, Repr

/-- A registry row as the pipeline receives it: the immutable data columns,
plus the role columns, which are absent (`none`) until
`retrieve_model_gameweek_history` adds them in place. -/
structure PRow where
  id : Nat
  positions : Pos
  short_name : String
  start_cost : Int
  total_points : Int
  gw_points : Nat → Int
  gw_minutes : Nat → Nat
  flags : Option RoleFlags

/-- The data columns of a registry row (everything except the added role
columns). -/
def PRow.dataCols (r : PRow) :
    Nat × Pos × String × Int × Int × (Nat → Int) × (Nat → Nat) :=
  (r.id, r.positions, r.short_name, r.start_cost, r.total_points,
    r.gw_points, r.gw_minutes)

/-- Embeds `retrieve_model_gameweek_history`.  The source assigns four new
boolean columns onto the CALLER'S frame in place
(`player_gameweek_df['in_lineup'] = ...`) and then returns the rows whose
id appears in the model output; we return the pair
(state of the input frame after the call, returned filtered frame). -/
def retrieve_model_gameweek_history (model_output : ModelOutput)
    (player_gameweek_df : List PRow) : List PRow × List PRow :=
  let mutated := player_gameweek_df.map (fun r =>
    { r with
      flags := some
        { in_lineup := model_output.lineup.contains r.id
          on_bench := model_output.bench.contains r.id
          is_captain := model_output.captaincy.contains r.id
          is_vice_captain := model_output.vice_captaincy.contains r.id } })
  let player_ids := model_output.lineup ++ model_output.bench ++
    model_output.captaincy ++ model_output.vice_captaincy
  (mutated, mutated.filter (fun r => player_ids.contains r.id))

/-- Fixture row builder: constant points/minutes across gameweeks, which is
all the one-gameweek fixtures below need. -/
def mkRow (i : Nat) (p : Pos) (club : String) (cost : Int) (pts : Int)
    (mins : Nat) (lu bb c v : Bool) : Row :=
  { id := i, positions := p, short_name := club, start_cost := cost,
    total_points := pts, gw_points := fun _ => pts,
    gw_minutes := fun _ => mins, in_lineup := lu, on_bench := bb,
    is_captain := c, is_vice_captain := v }

/-- Fixture for the captaincy-pair search: fifteen players, all featuring,
captain id 5 (10 points), every other player 1 or 2 points. -/
def dfC1 : List Row :=
  [ mkRow 1 Pos.GK "A" 45 2 1 true false false false,
    mkRow 2 Pos.DEF "B" 45 1 1 true false false false,
    mkRow 3 Pos.DEF "C" 45 1 1 true false false false,
    mkRow 4 Pos.DEF "D" 45 1 1 true false false false,
    mkRow 5 Pos.MID "E" 45 10 1 true false true false,
    mkRow 6 Pos.MID "F" 45 1 1 true false false true,
    mkRow 7 Pos.MID "G" 45 1 1 true false false false,
    mkRow 8 Pos.MID "H" 45 1 1 true false false false,
    mkRow 9 Pos.FWD "I" 45 1 1 true false false false,
    mkRow 10 Pos.FWD "J" 45 1 1 true false false false,
    mkRow 11 Pos.FWD "K" 45 1 1 true false false false,
    mkRow 12 Pos.GK "L" 45 1 1 false true false false,
    mkRow 13 Pos.DEF "M" 45 1 1 false true false false,
    mkRow 14 Pos.MID "N" 45 1 1 false true false false,
    mkRow 15 Pos.FWD "O" 45 1 1 false true false false ]

/-- Fixture for the same-position substitution preference: starting DEF
count exactly 3, the starting DEF id 2 does not feature, and the bench holds
a MID (id 13, earlier in bench order) and a DEF (id 14). -/
def dfC2 : List Row :=
  [ mkRow 1 Pos.GK "A" 45 1 1 true false false false,
    mkRow 2 Pos.DEF "B" 45 0 0 true false false false,
    mkRow 3 Pos.DEF "C" 45 1 1 true false false false,
    mkRow 4 Pos.DEF "D" 45 1 1 true false false false,
    mkRow 5 Pos.MID "E" 45 1 1 true false true false,
    mkRow 6 Pos.MID "F" 45 1 1 true false false true,
    mkRow 7 Pos.MID "G" 45 1 1 true false false false,
    mkRow 8 Pos.MID "H" 45 1 1 true false false false,
    mkRow 9 Pos.FWD "I" 45 1 1 true false false false,
    mkRow 10 Pos.FWD "J" 45 1 1 true false false false,
    mkRow 11 Pos.FWD "K" 45 1 1 true false false false,
    mkRow 12 Pos.GK "L" 45 1 1 false true false false,
    mkRow 13 Pos.MID "M" 45 3 1 false true false false,
    mkRow 14 Pos.DEF "N" 45 2 1 false true false false,
    mkRow 15 Pos.FWD "O" 45 1 1 false true false false ]

/-- Fixture for the captaincy bonus: the captain (id 2) and the
vice-captain (id 3) both record zero minutes, but the vice-captain's points
column holds 5 — a data state the spec's data model allows. -/
def dfC3cex : List Row :=
  [ mkRow 1 Pos.GK "A" 45 1 1 true false false false,
    mkRow 2 Pos.MID "B" 45 0 0 true false true false,
    mkRow 3 Pos.MID "C" 45 5 0 true false false true,
    mkRow 4 Pos.MID "D" 45 2 1 true false false false,
    mkRow 5 Pos.MID "E" 45 2 1 true false false false,
    mkRow 6 Pos.GK "F" 45 1 1 false true false false ]

/-- Fixture in which every lineup player features and scores `-1`: every
bench-order permutation's season total is `-12`. -/
def dfC5cex : List Row :=
  [ mkRow 1 Pos.GK "A" 45 (-1) 1 true false false false,
    mkRow 2 Pos.DEF "B" 45 (-1) 1 true false false false,
    mkRow 3 Pos.DEF "C" 45 (-1) 1 true false false false,
    mkRow 4 Pos.DEF "D" 45 (-1) 1 true false false false,
    mkRow 5 Pos.MID "E" 45 (-1) 1 true false true false,
    mkRow 6 Pos.MID "F" 45 (-1) 1 true false false true,
    mkRow 7 Pos.MID "G" 45 (-1) 1 true false false false,
    mkRow 8 Pos.MID "H" 45 (-1) 1 true false false false,
    mkRow 9 Pos.FWD "I" 45 (-1) 1 true false false false,
    mkRow 10 Pos.FWD "J" 45 (-1) 1 true false false false,
    mkRow 11 Pos.FWD "K" 45 (-1) 1 true false false false,
    mkRow 12 Pos.GK "L" 45 (-1) 1 false true false false,
    mkRow 13 Pos.DEF "M" 45 (-1) 1 false true false false,
    mkRow 14 Pos.MID "N" 45 (-1) 1 false true false false,
    mkRow 15 Pos.FWD "O" 45 (-1) 1 false true false false ]

/-- Fixture with a non-featuring starting goalkeeper (id 1) and a featuring
bench goalkeeper (id 12). -/
def dfC7w : List Row :=
  [ mkRow 1 Pos.GK "A" 45 0 0 true false false false,
    mkRow 2 Pos.DEF "B" 45 1 1 true false false false,
    mkRow 3 Pos.DEF "C" 45 1 1 true false false false,
    mkRow 4 Pos.DEF "D" 45 1 1 true false false false,
    mkRow 5 Pos.MID "E" 45 1 1 true false true false,
    mkRow 6 Pos.MID "F" 45 1 1 true false false true,
    mkRow 7 Pos.MID "G" 45 1 1 true false false false,
    mkRow 8 Pos.MID "H" 45 1 1 true false false false,
    mkRow 9 Pos.FWD "I" 45 1 1 true false false false,
    mkRow 10 Pos.FWD "J" 45 1 1 true false false false,
    mkRow 11 Pos.FWD "K" 45 1 1 true false false false,
    mkRow 12 Pos.GK "L" 45 2 1 false true false false,
    mkRow 13 Pos.DEF "M" 45 1 1 false true false false,
    mkRow 14 Pos.MID "N" 45 1 1 false true false false,
    mkRow 15 Pos.FWD "O" 45 1 1 false true false false ]

/-- A fifteen-row 0/1 assignment satisfying every constraint of the
optimization model: 1 GK + 4 DEF + 4 MID + 2 FWD in the lineup, one player
of each position block on the bench, captain id 5, vice-captain id 6, every
club distinct, costs summing to 675 against the 1000 budget. -/
def dfC4w : List Row :=
  [ mkRow 1 Pos.GK "A" 45 0 0 true false false false,
    mkRow 2 Pos.DEF "B" 45 0 0 true false false false,
    mkRow 3 Pos.DEF "C" 45 0 0 true false false false,
    mkRow 4 Pos.DEF "D" 45 0 0 true false false false,
    mkRow 5 Pos.DEF "E" 45 0 0 true false true false,
    mkRow 6 Pos.MID "F" 45 0 0 true false false true,
    mkRow 7 Pos.MID "G" 45 0 0 true false false false,
    mkRow 8 Pos.MID "H" 45 0 0 true false false false,
    mkRow 9 Pos.MID "I" 45 0 0 true false false false,
    mkRow 10 Pos.FWD "J" 45 0 0 true false false false,
    mkRow 11 Pos.FWD "K" 45 0 0 true false false false,
    mkRow 12 Pos.GK "L" 45 0 0 false true false false,
    mkRow 13 Pos.DEF "M" 45 0 0 false true false false,
    mkRow 14 Pos.MID "N" 45 0 0 false true false false,
    mkRow 15 Pos.FWD "O" 45 0 0 false true false false ]

/-- A solver hand-back with status `Infeasible` and every variable left at
zero, as CBC does on an infeasible model. -/
def solvedInfeasible : SolverResult :=
  { status := LpStatus.Infeasible
    lineup := [⟨"lineup_7", some 0⟩, ⟨"lineup_8", some 0⟩]
    bench := [⟨"bench_7", some 0⟩, ⟨"bench_8", some 0⟩]
    captaincy := [⟨"captaincy_7", some 0⟩, ⟨"captaincy_8", some 0⟩]
    vice_captaincy := [⟨"vice_captaincy_7", some 0⟩, ⟨"vice_captaincy_8", some 0⟩] }

/-- A one-row registry before the flag columns exist. -/
def regRow0 : PRow :=
  { id := 1, positions := Pos.MID, short_name := "A", start_cost := 45,
    total_points := 7, gw_points := fun _ => 7, gw_minutes := fun _ => 90,
    flags := none }

/-- A model output selecting the single registry player everywhere. -/
def out0 : ModelOutput :=
  { lineup := [1], bench := [], captaincy := [1], vice_captaincy := [1] }

instance (budget : Int) (df : List Row) : Decidable (model_constraints budget df) := by
  unfold model_constraints
  exact inferInstance

/-- Number of rows satisfying a Boolean predicate — the `len(df[...])`
counting idiom. -/
def countRows (df : List Row) (p : Row → Bool) : Nat := (df.filter p).length

/-- A concrete substitution-loop state for the same-position-preference
fixture: zero points so far, bench ids [13, 14] (a MID then a DEF in dfC2),
keeper slot id 12 available, starting DEF count exactly 3. -/
def stC2w : SimState := ⟨0, [13, 14], some 12, 3, 4, 3, []⟩

instance (df : List Row) : Decidable (idsNodup df) := by
  unfold idsNodup
  exact List.nodupDecidable _

/-! ### Theorems -/

/-- C8: for every gameweek beyond the current one the gameweek scorer takes
the early return, which carries zero points and no substitutions, so
invoking it over a fixed-length range is safe regardless of season
progress. -/
theorem c8_future_gameweek_yields_zero (current_gw gw : Nat) (df : List Row)
    (h : gw > current_gw) :
    single_gw_simulation current_gw gw df = some (GwOutcome.future 0) ∧
    ∀ o, single_gw_simulation current_gw gw df = some o →
      o.pts = 0 ∧ o.subs = [] := by
  have h1 : single_gw_simulation current_gw gw df = some (GwOutcome.future 0) := by
    unfold single_gw_simulation
    rw [if_pos h]
  refine ⟨h1, fun o ho => ?_⟩
  rw [h1] at ho
  injection ho with ho
  subst ho
  exact ⟨rfl, rfl⟩

/-- Witness for C8: gameweek 2 against current gameweek 1 on a concrete
frame. -/
theorem c8_future_gameweek_yields_zero_witness :
    2 > 1 ∧
    (single_gw_simulation 1 2 dfC2 = some (GwOutcome.future 0) ∧
     ∀ o, single_gw_simulation 1 2 dfC2 = some o →
       o.pts = 0 ∧ o.subs = []) :=
  ⟨by decide, c8_future_gameweek_yields_zero 1 2 dfC2 (by decide)⟩

/-- C6 (amended): the optimizer never inspects the solver status — the four
decision-variable lists are handed to the caller unchanged whatever the
status is, so infeasibility is not surfaced; solve is invoked once with no
retry, and all the caller can do is extract whatever variables carry value 1. -/
theorem c6_solver_status_never_inspected (res : SolverResult) (s : LpStatus) :
    basic_set_and_forget_post { res with status := s } =
      basic_set_and_forget_post res ∧
    basic_set_and_forget_post res =
      (res.lineup, res.bench, res.captaincy, res.vice_captaincy) :=
  ⟨rfl, rfl⟩

/-- Counterexample for C6 as stated: on an `Infeasible` solve the caller
still receives the raw variable lists, and the extraction step produces an
ordinary (here empty) squad dictionary — no infeasibility outcome exists
anywhere in the returned data. -/
theorem c6_counterexample :
    solvedInfeasible.status = LpStatus.Infeasible ∧
    basic_set_and_forget_post solvedInfeasible =
      (solvedInfeasible.lineup, solvedInfeasible.bench,
       solvedInfeasible.captaincy, solvedInfeasible.vice_captaincy) ∧
    retrieve_refactored_model_output solvedInfeasible.lineup
      solvedInfeasible.bench solvedInfeasible.captaincy
      solvedInfeasible.vice_captaincy = ⟨[], [], [], []⟩ :=
  ⟨rfl, rfl, by decide⟩

/-- C9 (amended): the data columns (ids, positions, clubs, costs, points,
minutes) and the row count of the registry are unchanged by
`retrieve_model_gameweek_history`; the call does, however, mutate the
registry by adding the four boolean role columns in place. -/
theorem c9_data_columns_and_rows_preserved (out : ModelOutput)
    (df : List PRow) :
    ((retrieve_model_gameweek_history out df).1).map PRow.dataCols =
      df.map PRow.dataCols ∧
    ((retrieve_model_gameweek_history out df).1).length = df.length := by
  constructor
  · simp only [retrieve_model_gameweek_history, List.map_map]
    exact List.map_congr_left (fun r _ => rfl)
  · simp [retrieve_model_gameweek_history]

/-- Counterexample for C9 as stated: after the call the input registry is
not the table that was passed in — the four role columns have appeared on
it. -/
theorem c9_counterexample :
    ((retrieve_model_gameweek_history out0 [regRow0]).1).map PRow.flags ≠
      [regRow0].map PRow.flags := by
  decide

lemma digitChar_isDigit {k : Nat} (h : k < 10) :
    (digitChar k).isDigit = true := by
  interval_cases k <;> decide

lemma digitVal_digitChar {k : Nat} (h : k < 10) :
    digitVal (digitChar k) = k := by
  interval_cases k <;> decide

lemma natDigits_all_digits (n : Nat) :
    ∀ c ∈ natDigits n, c.isDigit = true := by
  induction n using Nat.strong_induction_on with
  | _ n ih =>
    intro c hc
    rw [natDigits] at hc
    by_cases h : n < 10
    · rw [if_pos h] at hc
      simp only [List.mem_singleton] at hc
      subst hc
      exact digitChar_isDigit h
    · rw [if_neg h] at hc
      rcases List.mem_append.1 hc with h1 | h1
      · exact ih (n / 10) (Nat.div_lt_self (by omega) (by omega)) c h1
      · simp only [List.mem_singleton] at h1
        subst h1
        exact digitChar_isDigit (Nat.mod_lt _ (by omega))

lemma natDigits_ne_nil (n : Nat) : natDigits n ≠ [] := by
  rw [natDigits]
  by_cases h : n < 10
  · rw [if_pos h]; simp
  · rw [if_neg h]; simp

lemma parse_natDigits (n : Nat) :
    (natDigits n).foldl (fun a c => a * 10 + digitVal c) 0 = n := by
  induction n using Nat.strong_induction_on with
  | _ n ih =>
    rw [natDigits]
    by_cases h : n < 10
    · rw [if_pos h]
      simp [digitVal_digitChar h]
    · rw [if_neg h]
      rw [List.foldl_append]
      rw [ih (n / 10) (Nat.div_lt_self (by omega) (by omega))]
      simp only [List.foldl_cons, List.foldl_nil]
      rw [digitVal_digitChar (Nat.mod_lt _ (by omega))]
      omega

lemma filter_natDigits (n : Nat) :
    (natDigits n).filter Char.isDigit = natDigits n :=
  List.filter_eq_self.2 (natDigits_all_digits n)

/-- C10: for every player id and each of the four digit-free variable-name
tags the optimizer uses, `retrieve_base_id` recovers exactly the id from the
generated variable name. -/
theorem c10_variable_name_roundtrip (n : Nat) (tag : String)
    (htag : tag ∈ ["lineup_", "bench_", "captaincy_", "vice_captaincy_"]) :
    retrieve_base_id (lpVarName tag n) = some n := by
  have hnd : tag.toList.filter Char.isDigit = [] := by
    simp only [List.mem_cons, List.not_mem_nil, or_false] at htag
    rcases htag with rfl | rfl | rfl | rfl <;> decide
  have hsplit : (lpVarName tag n).toList = tag.toList ++ natDigits n := rfl
  have hfilter : (lpVarName tag n).toList.filter Char.isDigit = natDigits n := by
    rw [hsplit, List.filter_append, hnd, filter_natDigits, List.nil_append]
  unfold retrieve_base_id
  rw [hfilter]
  obtain ⟨c, cs, hcons⟩ : ∃ c cs, natDigits n = c :: cs := by
    cases hnn : natDigits n with
    | nil => exact absurd hnn (natDigits_ne_nil n)
    | cons c cs => exact ⟨c, cs, rfl⟩
  rw [hcons]
  show some ((c :: cs).foldl (fun a c => a * 10 + digitVal c) 0) = some n
  rw [← hcons, parse_natDigits]

/-- Witness for C10 at id 374 with the lineup tag. -/
theorem c10_variable_name_roundtrip_witness :
    "lineup_" ∈ ["lineup_", "bench_", "captaincy_", "vice_captaincy_"] ∧
    retrieve_base_id (lpVarName "lineup_" 374) = some 374 :=
  ⟨by decide, c10_variable_name_roundtrip 374 "lineup_" (by decide)⟩

lemma foldl_add_acc (f : Row → Nat) (df : List Row) :
    ∀ a : Nat, df.foldl (fun a r => a + f r) a =
      a + df.foldl (fun a r => a + f r) 0 := by
  induction df with
  | nil => intro a; simp
  | cons x l ih =>
    intro a
    simp only [List.foldl_cons]
    rw [ih (a + f x), ih (0 + f x)]
    omega

lemma sumRowsN_cons (f : Row → Nat) (x : Row) (l : List Row) :
    sumRowsN (x :: l) f = f x + sumRowsN l f := by
  unfold sumRowsN
  simp only [List.foldl_cons]
  rw [foldl_add_acc f l (0 + f x)]
  omega

lemma foldl_add_accZ (f : Row → Int) (df : List Row) :
    ∀ a : Int, df.foldl (fun a r => a + f r) a =
      a + df.foldl (fun a r => a + f r) 0 := by
  induction df with
  | nil => intro a; simp
  | cons x l ih =>
    intro a
    simp only [List.foldl_cons]
    rw [ih (a + f x), ih (0 + f x)]
    ring

lemma sumRowsZ_cons (f : Row → Int) (x : Row) (l : List Row) :
    sumRowsZ (x :: l) f = f x + sumRowsZ l f := by
  unfold sumRowsZ
  simp only [List.foldl_cons]
  rw [foldl_add_accZ f l (0 + f x)]
  ring

lemma sumRowsN_congr {df : List Row} {f g : Row → Nat}
    (h : ∀ r ∈ df, f r = g r) : sumRowsN df f = sumRowsN df g := by
  induction df with
  | nil => rfl
  | cons x l ih =>
    rw [sumRowsN_cons, sumRowsN_cons, h x (List.mem_cons_self x l),
      ih (fun r hr => h r (List.mem_cons_of_mem x hr))]

lemma sumRowsZ_congr {df : List Row} {f g : Row → Int}
    (h : ∀ r ∈ df, f r = g r) : sumRowsZ df f = sumRowsZ df g := by
  induction df with
  | nil => rfl
  | cons x l ih =>
    rw [sumRowsZ_cons, sumRowsZ_cons, h x (List.mem_cons_self x l),
      ih (fun r hr => h r (List.mem_cons_of_mem x hr))]

lemma sumRowsN_mono {df : List Row} {f g : Row → Nat}
    (h : ∀ r ∈ df, f r ≤ g r) : sumRowsN df f ≤ sumRowsN df g := by
  induction df with
  | nil => exact Nat.le_refl _
  | cons x l ih =>
    rw [sumRowsN_cons, sumRowsN_cons]
    exact Nat.add_le_add (h x (List.mem_cons_self x l))
      (ih (fun r hr => h r (List.mem_cons_of_mem x hr)))

lemma countRows_eq_sum (df : List Row) (p : Row → Bool) :
    countRows df p = sumRowsN df (fun r => b2n (p r)) := by
  induction df with
  | nil => rfl
  | cons x l ih =>
    rw [sumRowsN_cons]
    unfold countRows at ih ⊢
    cases h : p x
    · simp [List.filter_cons, h, b2n, ih]
    · simp [List.filter_cons, h, b2n, ih]
      omega

lemma b2n_add_of_not_both {l b : Bool} (h : b2n l + b2n b ≤ 1) :
    b2n l + b2n b = b2n (l || b) := by
  cases l <;> cases b <;> simp_all [b2n]

lemma b2z_cost_of_not_both {l b : Bool} {c : Int} (h : b2n l + b2n b ≤ 1) :
    (b2z l + b2z b) * c = if l || b then c else 0 := by
  cases l <;> cases b <;> simp_all [b2n, b2z]

/-- C4: every 0/1 assignment satisfying the constraints of the optimization
model satisfies the §3 squad invariants — 11 lineup and 4 bench players with
lineup and bench disjoint; GK lineup 1 and squad total 2; DEF lineup within
[3,5] and total 5; MID lineup at least 2 and total 5; FWD lineup at least 1
and total 3; squad start-cost within the budget; at most three squad members
per club; and exactly one captain and one vice-captain, both in the lineup
and on distinct rows. -/
theorem c4_model_constraints_give_squad_invariants (budget : Int)
    (df : List Row) (h : model_constraints budget df) :
    countRows df (fun r => r.in_lineup) = 11 ∧
    countRows df (fun r => r.on_bench) = 4 ∧
    (∀ r ∈ df, ¬(r.in_lineup = true ∧ r.on_bench = true)) ∧
    countRows df (fun r => decide (r.positions = Pos.GK) && r.in_lineup) = 1 ∧
    countRows df
      (fun r => decide (r.positions = Pos.GK) && (r.in_lineup || r.on_bench)) = 2 ∧
    3 ≤ countRows df (fun r => decide (r.positions = Pos.DEF) && r.in_lineup) ∧
    countRows df (fun r => decide (r.positions = Pos.DEF) && r.in_lineup) ≤ 5 ∧
    countRows df
      (fun r => decide (r.positions = Pos.DEF) && (r.in_lineup || r.on_bench)) = 5 ∧
    2 ≤ countRows df (fun r => decide (r.positions = Pos.MID) && r.in_lineup) ∧
    countRows df
      (fun r => decide (r.positions = Pos.MID) && (r.in_lineup || r.on_bench)) = 5 ∧
    1 ≤ countRows df (fun r => decide (r.positions = Pos.FWD) && r.in_lineup) ∧
    countRows df
      (fun r => decide (r.positions = Pos.FWD) && (r.in_lineup || r.on_bench)) = 3 ∧
    sumRowsZ df (fun r => if r.in_lineup || r.on_bench then r.start_cost else 0) ≤
      budget ∧
    (∀ c ∈ df.map Row.short_name,
      countRows df
        (fun r => decide (r.short_name = c) && (r.in_lineup || r.on_bench)) ≤ 3) ∧
    countRows df (fun r => r.is_captain) = 1 ∧
    countRows df (fun r => r.is_vice_captain) = 1 ∧
    (∀ r ∈ df, r.is_captain = true → r.in_lineup = true) ∧
    (∀ r ∈ df, r.is_vice_captain = true → r.in_lineup = true) ∧
    (∀ r ∈ df, ¬(r.is_captain = true ∧ r.is_vice_captain = true)) := by
  obtain ⟨hbud, hgk1, hgk2, hdef1, hdef2, hmid1, hmid2, hfwd1, hfwd2,
    h11, h4, -, hcap, hvice, hclub, hper⟩ := h
  have hnboth : ∀ r ∈ df, b2n r.in_lineup + b2n r.on_bench ≤ 1 :=
    fun r hr => (hper r hr).1
  have lineup_count : ∀ (q : Row → Prop) (inst : DecidablePred q),
      countRows df (fun r => decide (q r) && r.in_lineup) =
        sumRowsN df (fun r => if q r then b2n r.in_lineup else 0) := by
    intro q inst
    rw [countRows_eq_sum]
    refine sumRowsN_congr (fun r _ => ?_)
    by_cases hq : q r
    · cases hl : r.in_lineup <;> simp [hq, hl, b2n]
    · simp [hq, b2n]
  have total_count : ∀ (q : Row → Prop) (inst : DecidablePred q),
      countRows df (fun r => decide (q r) && (r.in_lineup || r.on_bench)) =
        sumRowsN df
          (fun r => if q r then b2n r.in_lineup + b2n r.on_bench else 0) := by
    intro q inst
    rw [countRows_eq_sum]
    refine sumRowsN_congr (fun r hr => ?_)
    by_cases hq : q r
    · rw [b2n_add_of_not_both (hnboth r hr)]
      simp [hq]
    · simp [hq, b2n]
  refine ⟨?_, ?_, ?_, ?_, ?_, ?_, ?_, ?_, ?_, ?_, ?_, ?_, ?_, ?_, ?_, ?_,
    ?_, ?_, ?_⟩
  · rw [countRows_eq_sum]; exact h11
  · rw [countRows_eq_sum]; exact h4
  · intro r hr ⟨hl, hb⟩
    have := hnboth r hr
    rw [hl, hb] at this
    simp [b2n] at this
  · rw [lineup_count _ _]; exact hgk1
  · rw [total_count _ _]; exact hgk2
  · rw [lineup_count _ _]; exact hdef1
  · rw [lineup_count _ _]
    refine le_trans (sumRowsN_mono (fun r _ => ?_)) (le_of_eq hdef2)
    by_cases hq : r.positions = Pos.DEF <;> simp [hq]
  · rw [total_count _ _]; exact hdef2
  · rw [lineup_count _ _]; exact hmid1
  · rw [total_count _ _]; exact hmid2
  · rw [lineup_count _ _]; exact hfwd1
  · rw [total_count _ _]; exact hfwd2
  · refine le_trans (le_of_eq (sumRowsZ_congr (fun r hr => ?_))) hbud
    rw [b2z_cost_of_not_both (hnboth r hr)]
  · intro c hc
    refine le_trans ?_ (hclub c hc)
    rw [countRows_eq_sum]
    refine sumRowsN_mono (fun r hr => ?_)
    by_cases hq : r.short_name = c
    · cases hl : r.in_lineup <;> cases hb : r.on_bench <;>
        simp [hq, hl, hb, b2n]
    · simp [hq, b2n]
  · rw [countRows_eq_sum]; exact hcap
  · rw [countRows_eq_sum]; exact hvice
  · intro r hr hcpt
    have h2 := (hper r hr).2.1
    rw [hcpt] at h2
    cases hl : r.in_lineup
    · rw [hl] at h2; simp [b2n] at h2
    · rfl
  · intro r hr hv
    have h2 := (hper r hr).2.2.1
    rw [hv] at h2
    cases hl : r.in_lineup
    · rw [hl] at h2; simp [b2n] at h2
    · rfl
  · intro r hr ⟨hc1, hv1⟩
    have h2 := (hper r hr).2.2.2
    rw [hc1, hv1] at h2
    simp [b2n] at h2

/-- Witness for C4: a concrete feasible assignment satisfying the model
constraints, with the invariants it implies. -/
theorem c4_model_constraints_give_squad_invariants_witness :
    model_constraints 1000 dfC4w ∧
    (countRows dfC4w (fun r => r.in_lineup) = 11 ∧
     countRows dfC4w (fun r => r.on_bench) = 4 ∧
     (∀ r ∈ dfC4w, ¬(r.in_lineup = true ∧ r.on_bench = true)) ∧
     countRows dfC4w (fun r => decide (r.positions = Pos.GK) && r.in_lineup) = 1 ∧
     countRows dfC4w
       (fun r => decide (r.positions = Pos.GK) && (r.in_lineup || r.on_bench)) = 2 ∧
     3 ≤ countRows dfC4w (fun r => decide (r.positions = Pos.DEF) && r.in_lineup) ∧
     countRows dfC4w (fun r => decide (r.positions = Pos.DEF) && r.in_lineup) ≤ 5 ∧
     countRows dfC4w
       (fun r => decide (r.positions = Pos.DEF) && (r.in_lineup || r.on_bench)) = 5 ∧
     2 ≤ countRows dfC4w (fun r => decide (r.positions = Pos.MID) && r.in_lineup) ∧
     countRows dfC4w
       (fun r => decide (r.positions = Pos.MID) && (r.in_lineup || r.on_bench)) = 5 ∧
     1 ≤ countRows dfC4w (fun r => decide (r.positions = Pos.FWD) && r.in_lineup) ∧
     countRows dfC4w
       (fun r => decide (r.positions = Pos.FWD) && (r.in_lineup || r.on_bench)) = 3 ∧
     sumRowsZ dfC4w
       (fun r => if r.in_lineup || r.on_bench then r.start_cost else 0) ≤ 1000 ∧
     (∀ c ∈ dfC4w.map Row.short_name,
       countRows dfC4w
         (fun r => decide (r.short_name = c) && (r.in_lineup || r.on_bench)) ≤ 3) ∧
     countRows dfC4w (fun r => r.is_captain) = 1 ∧
     countRows dfC4w (fun r => r.is_vice_captain) = 1 ∧
     (∀ r ∈ dfC4w, r.is_captain = true → r.in_lineup = true) ∧
     (∀ r ∈ dfC4w, r.is_vice_captain = true → r.in_lineup = true) ∧
     (∀ r ∈ dfC4w, ¬(r.is_captain = true ∧ r.is_vice_captain = true))) :=
  ⟨by decide, c4_model_constraints_give_squad_invariants 1000 dfC4w (by decide)⟩

lemma anyPosSub_shift (gw : Nat) (df : List Row) (player : Nat) (δ : Int)
    (pts : Int) (bench : List Nat) (keeper : Option Nat) (d m f : Nat)
    (subs : List SubRec) :
    anyPosSub gw df ⟨pts + δ, bench, keeper, d, m, f, subs⟩ player =
      { anyPosSub gw df ⟨pts, bench, keeper, d, m, f, subs⟩ player with
        points :=
          (anyPosSub gw df ⟨pts, bench, keeper, d, m, f, subs⟩ player).points + δ } := by
  unfold anyPosSub
  cases hg : get_bench_player df bench none with
  | none => simp
  | some s =>
    cases hs : posOf df s with
    | none => simp [hs, add_right_comm]
    | some sp => cases sp <;> simp [hs, add_right_comm]

lemma samePosSub_d_shift (gw : Nat) (df : List Row) (player : Nat) (p : Pos)
    (δ : Int) (pts : Int) (bench : List Nat) (keeper : Option Nat)
    (d m f : Nat) (subs : List SubRec) :
    samePosSub gw df ⟨pts + δ, bench, keeper, d, m, f, subs⟩ player p
        (fun s => { s with d := s.d + 1 }) =
      { samePosSub gw df ⟨pts, bench, keeper, d, m, f, subs⟩ player p
          (fun s => { s with d := s.d + 1 }) with
        points :=
          (samePosSub gw df ⟨pts, bench, keeper, d, m, f, subs⟩ player p
            (fun s => { s with d := s.d + 1 })).points + δ } := by
  unfold samePosSub
  cases hg : get_bench_player df bench (some p) with
  | none => simp
  | some s => simp [add_right_comm]

lemma samePosSub_m_shift (gw : Nat) (df : List Row) (player : Nat) (p : Pos)
    (δ : Int) (pts : Int) (bench : List Nat) (keeper : Option Nat)
    (d m f : Nat) (subs : List SubRec) :
    samePosSub gw df ⟨pts + δ, bench, keeper, d, m, f, subs⟩ player p
        (fun s => { s with m := s.m + 1 }) =
      { samePosSub gw df ⟨pts, bench, keeper, d, m, f, subs⟩ player p
          (fun s => { s with m := s.m + 1 }) with
        points :=
          (samePosSub gw df ⟨pts, bench, keeper, d, m, f, subs⟩ player p
            (fun s => { s with m := s.m + 1 })).points + δ } := by
  unfold samePosSub
  cases hg : get_bench_player df bench (some p) with
  | none => simp
  | some s => simp [add_right_comm]

lemma samePosSub_f_shift (gw : Nat) (df : List Row) (player : Nat) (p : Pos)
    (δ : Int) (pts : Int) (bench : List Nat) (keeper : Option Nat)
    (d m f : Nat) (subs : List SubRec) :
    samePosSub gw df ⟨pts + δ, bench, keeper, d, m, f, subs⟩ player p
        (fun s => { s with f := s.f + 1 }) =
      { samePosSub gw df ⟨pts, bench, keeper, d, m, f, subs⟩ player p
          (fun s => { s with f := s.f + 1 }) with
        points :=
          (samePosSub gw df ⟨pts, bench, keeper, d, m, f, subs⟩ player p
            (fun s => { s with f := s.f + 1 })).points + δ } := by
  unfold samePosSub
  cases hg : get_bench_player df bench (some p) with
  | none => simp
  | some s => simp [add_right_comm]

lemma sub_step_shift (gw : Nat) (df : List Row) (player : Nat) (δ : Int)
    (st : SimState) :
    sub_step gw df { st with points := st.points + δ } player =
      { sub_step gw df st player with
        points := (sub_step gw df st player).points + δ } := by
  obtain ⟨pts, bench, keeper, d, m, f, subs⟩ := st
  show sub_step gw df ⟨pts + δ, bench, keeper, d, m, f, subs⟩ player = _
  unfold sub_step
  cases hp : posOf df player with
  | none => cases keeper <;> simp [hp]
  | some pp =>
    cases pp with
    | GK => cases keeper <;> simp [hp, add_right_comm]
    | DEF =>
      by_cases hd : d ≤ 3
      · simp only [hp, if_pos hd, samePosSub_d_shift]
        cases hk2 : (samePosSub gw df ⟨pts, bench, keeper, d, m, f, subs⟩
            player Pos.DEF (fun s => { s with d := s.d + 1 })).keeper <;>
          simp [hk2]
      · simp only [hp, if_neg hd, anyPosSub_shift]
        cases hk2 : (anyPosSub gw df ⟨pts, bench, keeper, d, m, f, subs⟩
            player).keeper <;> simp [hk2]
    | MID =>
      by_cases hm : m ≤ 2
      · simp only [hp, if_pos hm, samePosSub_m_shift]
        cases hk2 : (samePosSub gw df ⟨pts, bench, keeper, d, m, f, subs⟩
            player Pos.MID (fun s => { s with m := s.m + 1 })).keeper <;>
          simp [hk2]
      · simp only [hp, if_neg hm, anyPosSub_shift]
        cases hk2 : (anyPosSub gw df ⟨pts, bench, keeper, d, m, f, subs⟩
            player).keeper <;> simp [hk2]
    | FWD =>
      by_cases hf : f ≤ 1
      · simp only [hp, if_pos hf, samePosSub_f_shift]
        cases hk2 : (samePosSub gw df ⟨pts, bench, keeper, d, m, f, subs⟩
            player Pos.FWD (fun s => { s with f := s.f + 1 })).keeper <;>
          simp [hk2]
      · simp only [hp, if_neg hf, anyPosSub_shift]
        cases hk2 : (anyPosSub gw df ⟨pts, bench, keeper, d, m, f, subs⟩
            player).keeper <;> simp [hk2]

lemma foldl_sub_step_shift (gw : Nat) (df : List Row) (l : List Nat)
    (δ : Int) :
    ∀ st : SimState,
      l.foldl (sub_step gw df) { st with points := st.points + δ } =
        { l.foldl (sub_step gw df) st with
          points := (l.foldl (sub_step gw df) st).points + δ } := by
  induction l with
  | nil => intro st; rfl
  | cons x xs ih =>
    intro st
    simp only [List.foldl_cons]
    rw [sub_step_shift, ih]

lemma final_points_decomposition (gw : Nat) (df : List Row) (k : Nat)
    (p : Int) :
    ((notPlayed gw df).foldl (sub_step gw df) (initState df k p)).points =
      p + subs_points gw df k := by
  have h0 : initState df k p =
      { initState df k 0 with points := (initState df k 0).points + p } := by
    simp [initState]
  rw [h0, foldl_sub_step_shift]
  unfold subs_points
  ring

/-- C3 (amended): for every playable gameweek, the scorer adds the captain's
points a second time exactly when the captain featured; otherwise it adds
the vice-captain's recorded points once more whether or not the vice
featured (so the bonus is 0 only when those recorded points are 0); there is
no fallback beyond the vice-captain, and `vice_play_in_captains_place` is
true exactly when the captain did not feature and the vice-captain did. -/
theorem c3_captaincy_bonus (current_gw gw : Nat) (df : List Row)
    (hgw : gw ≤ current_gw) (k : Nat) (ks : List Nat)
    (hk : (df.filter (fun r => r.on_bench && decide (r.positions = Pos.GK))).map
        Row.id = k :: ks)
    (cap vi : Row)
    (hcap : df.find? (fun r => r.is_captain) = some cap)
    (hvi : df.find? (fun r => r.is_vice_captain) = some vi) :
    ∃ r, single_gw_simulation current_gw gw df = some (GwOutcome.played r) ∧
      r.points = basePoints gw df +
        (if cap.gw_minutes gw > 0 then cap.gw_points gw else vi.gw_points gw) +
        subs_points gw df k ∧
      (r.did_captain_play = true ↔ cap.gw_minutes gw > 0) ∧
      (r.vice_play_in_captains_place = true ↔
        (¬ cap.gw_minutes gw > 0 ∧ vi.gw_minutes gw > 0)) := by
  unfold single_gw_simulation
  rw [if_neg (by omega), hk, hcap, hvi]
  refine ⟨_, rfl, ?_, ?_, ?_⟩
  · show ((notPlayed gw df).foldl (sub_step gw df)
      (initState df k (basePoints gw df + captaincy_bonus gw cap vi))).points = _
    rw [final_points_decomposition]
    unfold captaincy_bonus
    ring
  · simp
  · simp [not_lt, Nat.lt_iff_add_one_le]

/-- Witness for C3 on a concrete frame where the captain featured. -/
theorem c3_captaincy_bonus_witness :
    1 ≤ 1 ∧
    (dfC2.filter (fun r => r.on_bench && decide (r.positions = Pos.GK))).map
      Row.id = 12 :: [] ∧
    dfC2.find? (fun r => r.is_captain) =
      some (mkRow 5 Pos.MID "E" 45 1 1 true false true false) ∧
    dfC2.find? (fun r => r.is_vice_captain) =
      some (mkRow 6 Pos.MID "F" 45 1 1 true false false true) ∧
    (∃ r, single_gw_simulation 1 1 dfC2 = some (GwOutcome.played r) ∧
      r.points = basePoints 1 dfC2 +
        (if (mkRow 5 Pos.MID "E" 45 1 1 true false true false).gw_minutes 1 > 0
         then (mkRow 5 Pos.MID "E" 45 1 1 true false true false).gw_points 1
         else (mkRow 6 Pos.MID "F" 45 1 1 true false false true).gw_points 1) +
        subs_points 1 dfC2 12 ∧
      (r.did_captain_play = true ↔
        (mkRow 5 Pos.MID "E" 45 1 1 true false true false).gw_minutes 1 > 0) ∧
      (r.vice_play_in_captains_place = true ↔
        (¬ (mkRow 5 Pos.MID "E" 45 1 1 true false true false).gw_minutes 1 > 0 ∧
         (mkRow 6 Pos.MID "F" 45 1 1 true false false true).gw_minutes 1 > 0))) :=
  ⟨by decide, by decide, rfl, rfl,
    c3_captaincy_bonus 1 1 dfC2 (by decide) 12 [] (by decide)
      (mkRow 5 Pos.MID "E" 45 1 1 true false true false)
      (mkRow 6 Pos.MID "F" 45 1 1 true false false true) rfl rfl⟩

/-- Counterexample for C3 as stated: with captain and vice-captain both on
zero minutes but the vice-captain's points column holding 5, the scorer adds
5, not 0 — the claim's "adds 0 when the vice-captain also did not feature"
predicts 5 + 0 + 0 points, the code produces 10. -/
theorem c3_counterexample :
    single_gw_simulation 1 1 dfC3cex =
      some (GwOutcome.played ⟨10, [], false, false⟩) ∧
    basePoints 1 dfC3cex = 5 ∧
    subs_points 1 dfC3cex 6 = 0 ∧
    ((10 : Int) ≠ 5 + 0 + 0) :=
  ⟨by decide, by decide, by decide, by decide⟩

/-- C1 (evaluation of the code at the failing input): inside the captaincy
search, the pair (5, 2) is evaluated with BOTH flags set on BOTH players, so
the simulation doubles the earlier-row player (id 2, 1 point) instead of the
intended sole captain id 5 (10 points): the evaluated total is 22, the two
orientations of the pair evaluate identically, and the total the claim
prescribes (c sole captain, v sole vice) is 31.  The search still only draws
pairs from the 11 lineup ids (110 ordered pairs). -/
theorem c1_pair_evaluation_bug :
    seasonTotal 1 (set_pair_flags dfC1 (5, 2)) = some 22 ∧
    seasonTotal 1 (set_pair_flags dfC1 (2, 5)) = some 22 ∧
    seasonTotal 1 (specSetCaptainVice dfC1 5 2) = some 31 ∧
    seasonTotal 1 (set_pair_flags dfC1 (5, 2)) ≠
      seasonTotal 1 (specSetCaptainVice dfC1 5 2) ∧
    (perms2 ((dfC1.filter (fun r => r.in_lineup)).map Row.id)).length = 110 ∧
    best_pair_search 1 dfC1 = some (31, some (5, 6)) :=
  ⟨by decide, by decide, by decide, by decide, by decide, by decide⟩

lemma searchBest_fold {α : Type} (eval : α → Option Int) :
    ∀ (cands : List α) (bt : Int) (bo : Option α),
      (∀ c ∈ cands, (eval c).isSome) →
      ∃ bt' bo',
        cands.foldl
          (fun acc c =>
            match acc with
            | none => none
            | some (bt, bo) =>
              match eval c with
              | none => none
              | some t => if t > bt then some (t, some c) else some (bt, bo))
          (some (bt, bo)) = some (bt', bo') ∧
        bt ≤ bt' ∧
        (∀ c ∈ cands, ∀ t, eval c = some t → t ≤ bt') ∧
        ((bt' = bt ∧ bo' = bo) ∨
          ∃ o, bo' = some o ∧ o ∈ cands ∧ eval o = some bt') := by
  intro cands
  induction cands with
  | nil =>
    intro bt bo _
    exact ⟨bt, bo, rfl, le_refl _, by simp, Or.inl ⟨rfl, rfl⟩⟩
  | cons c cs ih =>
    intro bt bo h
    obtain ⟨t, ht⟩ := Option.isSome_iff_exists.1 (h c (List.mem_cons_self c cs))
    by_cases hgt : t > bt
    · obtain ⟨bt', bo', hfold, hle, hub, hach⟩ :=
        ih t (some c) (fun x hx => h x (List.mem_cons_of_mem c hx))
      refine ⟨bt', bo', ?_, by omega, ?_, ?_⟩
      · simp only [List.foldl_cons, ht, if_pos hgt]
        exact hfold
      · intro x hx t' ht'
        rcases List.mem_cons.1 hx with rfl | hx
        · rw [ht] at ht'
          injection ht' with ht'
          omega
        · exact hub x hx t' ht'
      · rcases hach with ⟨h1, h2⟩ | ⟨o, h1, h2, h3⟩
        · refine Or.inr ⟨c, by rw [h2], List.mem_cons_self c cs, ?_⟩
          rw [ht, h1]
        · exact Or.inr ⟨o, h1, List.mem_cons_of_mem c h2, h3⟩
    · obtain ⟨bt', bo', hfold, hle, hub, hach⟩ :=
        ih bt bo (fun x hx => h x (List.mem_cons_of_mem c hx))
      refine ⟨bt', bo', ?_, hle, ?_, ?_⟩
      · simp only [List.foldl_cons, ht, if_neg hgt]
        exact hfold
      · intro x hx t' ht'
        rcases List.mem_cons.1 hx with rfl | hx
        · rw [ht] at ht'
          injection ht' with ht'
          omega
        · exact hub x hx t' ht'
      · rcases hach with ⟨h1, h2⟩ | ⟨o, h1, h2, h3⟩
        · exact Or.inl ⟨h1, h2⟩
        · exact Or.inr ⟨o, h1, List.mem_cons_of_mem c h2, h3⟩

lemma searchBest_spec {α : Type} (eval : α → Option Int) (cands : List α)
    (h : ∀ c ∈ cands, (eval c).isSome) :
    ∃ bt bo, searchBest eval cands = some (bt, bo) ∧
      0 ≤ bt ∧
      (∀ c ∈ cands, ∀ t, eval c = some t → t ≤ bt) ∧
      ((bt = 0 ∧ bo = none) ∨
        ∃ o, bo = some o ∧ o ∈ cands ∧ eval o = some bt) := by
  obtain ⟨bt, bo, hfold, hle, hub, hach⟩ := searchBest_fold eval cands 0 none h
  exact ⟨bt, bo, hfold, hle, hub, hach⟩

lemma foldl_max_mem (xs : List Int) : ∀ a : Int,
    (xs.foldl max a = a ∨ xs.foldl max a ∈ xs) ∧
    a ≤ xs.foldl max a ∧ ∀ x ∈ xs, x ≤ xs.foldl max a := by
  induction xs with
  | nil => intro a; exact ⟨Or.inl rfl, le_refl _, by simp⟩
  | cons x l ih =>
    intro a
    simp only [List.foldl_cons]
    obtain ⟨hm, hle, hub⟩ := ih (max a x)
    refine ⟨?_, le_trans (le_max_left a x) hle, ?_⟩
    · rcases hm with hm | hm
      · rcases max_choice a x with hc | hc
        · rw [hm, hc]
          exact Or.inl rfl
        · rw [hm, hc]
          exact Or.inr (List.mem_cons_self x l)
      · exact Or.inr (List.mem_cons_of_mem x hm)
    · intro y hy
      rcases List.mem_cons.1 hy with rfl | hy
      · exact le_trans (le_max_right a y) hle
      · exact hub y hy

lemma maxOfList_spec (xs : List Int) (hne : xs ≠ []) :
    ∃ M, maxOfList xs = some M ∧ M ∈ xs ∧ ∀ x ∈ xs, x ≤ M := by
  cases xs with
  | nil => exact absurd rfl hne
  | cons x l =>
    obtain ⟨hm, hle, hub⟩ := foldl_max_mem l x
    refine ⟨l.foldl max x, rfl, ?_, ?_⟩
    · rcases hm with hm | hm
      · rw [hm]
        exact List.mem_cons_self x l
      · exact List.mem_cons_of_mem x hm
    · intro y hy
      rcases List.mem_cons.1 hy with rfl | hy
      · exact hle
      · exact hub y hy

lemma map_some_forward {α : Type} {f : α → Option Int} :
    ∀ {l : List α} {ts : List Int}, l.map f = ts.map some →
      ∀ x ∈ l, ∃ t ∈ ts, f x = some t := by
  intro l
  induction l with
  | nil => intro ts _ x hx; simp at hx
  | cons a l ih =>
    intro ts h x hx
    cases ts with
    | nil => simp at h
    | cons t ts' =>
      simp only [List.map_cons, List.cons.injEq] at h
      rcases List.mem_cons.1 hx with rfl | hx
      · exact ⟨t, List.mem_cons_self t ts', h.1⟩
      · obtain ⟨t', ht', hf⟩ := ih h.2 x hx
        exact ⟨t', List.mem_cons_of_mem t ht', hf⟩

lemma map_some_backward {α : Type} {f : α → Option Int} :
    ∀ {l : List α} {ts : List Int}, l.map f = ts.map some →
      ∀ t ∈ ts, ∃ x ∈ l, f x = some t := by
  intro l
  induction l with
  | nil =>
    intro ts h t htm
    cases ts with
    | nil => simp at htm
    | cons t' ts' => simp at h
  | cons a l ih =>
    intro ts h t htm
    cases ts with
    | nil => simp at htm
    | cons t' ts' =>
      simp only [List.map_cons, List.cons.injEq] at h
      rcases List.mem_cons.1 htm with rfl | htm
      · exact ⟨a, List.mem_cons_self a l, h.1⟩
      · obtain ⟨x, hx, hf⟩ := ih h.2 t htm
        exact ⟨x, List.mem_cons_of_mem a hx, hf⟩

lemma map_some_val {α : Type} {f : α → Option Int} {l : List α}
    {ts : List Int} (h : l.map f = ts.map some) :
    ∀ x ∈ l, ∀ t, f x = some t → t ∈ ts := by
  intro x hx t htf
  obtain ⟨t', ht', hf⟩ := map_some_forward h x hx
  rw [htf] at hf
  injection hf with hf
  rw [hf]
  exact ht'

/-- C5 (amended): for each bench weight, the inner search enumerates all
3! = 6 permutations of the three non-goalkeeper bench slots (goalkeeper slot
fixed at the front of the bench) and — whenever some permutation's season
total is positive — records exactly the brute-force maximum over the six
totals together with an order achieving it.  (When no total exceeds the
zero-initialised running best, the code records total 0 and no order
instead; see the counterexample.) -/
theorem c5_best_order_matches_bruteforce (cgw : Nat)
    (model_players_df : List Row) (lineup_players bench_gk : List Nat)
    (b1 b2 b3 : Nat) (totals : List Int)
    (h : (perms [b1, b2, b3]).map
        (fun bo => seasonTotal cgw
          (sortByOrder model_players_df (lineup_players ++ bench_gk ++ bo))) =
      totals.map some)
    (hpos : ∃ t ∈ totals, 0 < t) :
    (perms [b1, b2, b3]).length = 6 ∧
    ∃ M order,
      best_order_search cgw model_players_df lineup_players bench_gk
        [b1, b2, b3] = some (M, some order) ∧
      maxOfList totals = some M ∧
      (∃ bo ∈ perms [b1, b2, b3], order = lineup_players ++ bench_gk ++ bo) ∧
      seasonTotal cgw (sortByOrder model_players_df order) = some M := by
  have hcands : ((perms [b1, b2, b3]).map
      (fun bo => lineup_players ++ bench_gk ++ bo)).map
        (fun tord => seasonTotal cgw (sortByOrder model_players_df tord)) =
      totals.map some := by
    rw [List.map_map]
    exact h
  have hsome : ∀ c ∈ (perms [b1, b2, b3]).map
      (fun bo => lineup_players ++ bench_gk ++ bo),
      (seasonTotal cgw (sortByOrder model_players_df c)).isSome := by
    intro c hcm
    obtain ⟨t, _, hft⟩ := map_some_forward hcands c hcm
    rw [hft]
    rfl
  obtain ⟨bt, bo, hsearch, hnn, hub, hach⟩ :=
    searchBest_spec (fun tord => seasonTotal cgw (sortByOrder model_players_df tord))
      ((perms [b1, b2, b3]).map (fun bo => lineup_players ++ bench_gk ++ bo))
      hsome
  obtain ⟨t0, ht0m, ht0pos⟩ := hpos
  obtain ⟨x0, hx0, hx0f⟩ := map_some_backward hcands t0 ht0m
  have hbt_pos : 0 < bt := lt_of_lt_of_le ht0pos (hub x0 hx0 t0 hx0f)
  rcases hach with ⟨h0, -⟩ | ⟨o, hbo, homem, hoeval⟩
  · omega
  have hbt_mem : bt ∈ totals := map_some_val hcands o homem bt hoeval
  have htotne : totals ≠ [] := by
    intro hnil
    rw [hnil] at ht0m
    simp at ht0m
  obtain ⟨M, hM, hMmem, hMub⟩ := maxOfList_spec totals htotne
  obtain ⟨xM, hxM, hxMf⟩ := map_some_backward hcands M hMmem
  have hMle : M ≤ bt := hub xM hxM M hxMf
  have hleM : bt ≤ M := hMub bt hbt_mem
  have hMbt : M = bt := le_antisymm hMle hleM
  refine ⟨rfl, bt, o, ?_, ?_, ?_, hoeval⟩
  · show searchBest
        (fun tord => seasonTotal cgw (sortByOrder model_players_df tord))
        ((perms [b1, b2, b3]).map (fun bo => lineup_players ++ bench_gk ++ bo)) =
      some (bt, some o)
    rw [hsearch, hbo]
  · rw [hM, hMbt]
  · obtain ⟨bo', hbo', hobo⟩ := List.mem_map.1 homem
    exact ⟨bo', hbo', hobo.symm⟩

/-- Witness for C5 on a concrete frame whose six permutation totals are all
31. -/
theorem c5_best_order_matches_bruteforce_witness :
    ((perms [13, 14, 15]).map
      (fun bo => seasonTotal 1
        (sortByOrder dfC1 ([1, 2, 3, 4, 5, 6, 7, 8, 9, 10, 11] ++ [12] ++ bo))) =
      ([31, 31, 31, 31, 31, 31] : List Int).map some) ∧
    (∃ t ∈ ([31, 31, 31, 31, 31, 31] : List Int), 0 < t) ∧
    ((perms [13, 14, 15]).length = 6 ∧
     ∃ M order,
       best_order_search 1 dfC1 [1, 2, 3, 4, 5, 6, 7, 8, 9, 10, 11] [12]
         [13, 14, 15] = some (M, some order) ∧
       maxOfList [31, 31, 31, 31, 31, 31] = some M ∧
       (∃ bo ∈ perms [13, 14, 15],
         order = [1, 2, 3, 4, 5, 6, 7, 8, 9, 10, 11] ++ [12] ++ bo) ∧
       seasonTotal 1 (sortByOrder dfC1 order) = some M) :=
  ⟨by decide, by decide,
    c5_best_order_matches_bruteforce 1 dfC1 [1, 2, 3, 4, 5, 6, 7, 8, 9, 10, 11]
      [12] 13 14 15 [31, 31, 31, 31, 31, 31] (by decide) (by decide)⟩

/-- Counterexample for C5 as stated: when every permutation's season total is
negative (here all six equal -12), the zero-initialised strict-improvement
loop records total 0 and no order, not the brute-force maximum -12. -/
theorem c5_counterexample :
    best_order_search 1 dfC5cex [1, 2, 3, 4, 5, 6, 7, 8, 9, 10, 11] [12]
      [13, 14, 15] = some (0, none) ∧
    (perms [13, 14, 15]).map
      (fun bo => seasonTotal 1
        (sortByOrder dfC5cex ([1, 2, 3, 4, 5, 6, 7, 8, 9, 10, 11] ++ [12] ++ bo))) =
      (List.replicate 6 (some (-12)) : List (Option Int)) ∧
    maxOfList (List.replicate 6 (-12)) = some (-12) ∧
    ((0 : Int) ≠ -12) :=
  ⟨by decide, by decide, by decide, by decide⟩

lemma find?_eq_of_mem_nodup {df : List Row} (hnd : idsNodup df) {r : Row}
    (hr : r ∈ df) : df.find? (fun x => decide (x.id = r.id)) = some r := by
  induction df with
  | nil => simp at hr
  | cons x l ih =>
    have hnd' : idsNodup l := by
      unfold idsNodup ids at hnd ⊢
      simp only [List.map_cons] at hnd
      exact (List.nodup_cons.1 hnd).2
    by_cases hx : x.id = r.id
    · have hxr : x = r := by
        rcases List.mem_cons.1 hr with h1 | hrl
        · exact h1.symm
        · exfalso
          have hmem : r.id ∈ ids l := List.mem_map_of_mem Row.id hrl
          have hx_notin : x.id ∉ ids l := by
            unfold idsNodup ids at hnd
            simp only [List.map_cons] at hnd
            exact (List.nodup_cons.1 hnd).1
          rw [hx] at hx_notin
          exact hx_notin hmem
      subst hxr
      simp [List.find?_cons]
    · rw [List.find?_cons]
      have hfx : decide (x.id = r.id) = false := by simp [hx]
      simp only [hfx]
      have hrl : r ∈ l := by
        rcases List.mem_cons.1 hr with h1 | hrl
        · exact absurd (by rw [h1]) hx
        · exact hrl
      exact ih hnd' hrl

lemma posOf_of_mem_nodup {df : List Row} (hnd : idsNodup df) {r : Row}
    (hr : r ∈ df) : posOf df r.id = some r.positions := by
  unfold posOf
  rw [find?_eq_of_mem_nodup hnd hr]
  rfl

lemma mem_pos_ids_iff {df : List Row} (hnd : idsNodup df) (p : Pos) (i : Nat) :
    ((df.filter (fun r => decide (r.positions = p))).map Row.id).contains i =
      decide (posOf df i = some p) := by
  by_cases h : posOf df i = some p
  · rw [decide_eq_true h]
    unfold posOf at h
    cases hf : df.find? (fun x => decide (x.id = i)) with
    | none =>
      rw [hf] at h
      exact absurd h (by simp)
    | some r =>
      rw [hf] at h
      have h : r.positions = p := by
        simpa using h
      have hri : r.id = i := by
        have := List.find?_some hf
        simpa using this
      have hrmem : r ∈ df := List.mem_of_find?_eq_some hf
      have : i ∈ (df.filter (fun r => decide (r.positions = p))).map Row.id := by
        refine List.mem_map.2 ⟨r, ?_, hri⟩
        refine List.mem_filter.2 ⟨hrmem, ?_⟩
        simp [h]
      exact List.elem_eq_true_of_mem this
  · rw [decide_eq_false h]
    by_contra hcon
    have hcon' :
        ((df.filter (fun r => decide (r.positions = p))).map Row.id).contains i
          = true := by
      cases hcc :
          ((df.filter (fun r => decide (r.positions = p))).map Row.id).contains i
      · rw [hcc] at hcon; exact absurd rfl hcon
      · rfl
    have hmem : i ∈ (df.filter (fun r => decide (r.positions = p))).map Row.id :=
      List.mem_of_elem_eq_true hcon'
    obtain ⟨r, hrf, hri⟩ := List.mem_map.1 hmem
    have hrmem : r ∈ df := List.mem_of_mem_filter hrf
    have hrp : r.positions = p := by
      have := List.of_mem_filter hrf
      simpa using this
    apply h
    rw [← hri, posOf_of_mem_nodup hnd hrmem, hrp]

lemma get_bench_player_eq_find? {df : List Row} (hnd : idsNodup df)
    (bench : List Nat) (p : Pos) (hp : ¬ p = Pos.GK) :
    get_bench_player df bench (some p) =
      bench.find? (fun i => decide (posOf df i = some p)) := by
  have hpred : (fun i =>
      ((df.filter (fun r => decide (r.positions = p))).map Row.id).contains i) =
      (fun i => decide (posOf df i = some p)) := by
    funext i
    exact mem_pos_ids_iff hnd p i
  cases bench with
  | nil => rfl
  | cons b bs =>
    unfold get_bench_player
    cases p with
    | GK => exact absurd rfl hp
    | DEF =>
      show (b :: bs).find? (fun i =>
        ((df.filter (fun r => decide (r.positions = Pos.DEF))).map
          Row.id).contains i) = _
      rw [hpred]
    | MID =>
      show (b :: bs).find? (fun i =>
        ((df.filter (fun r => decide (r.positions = Pos.MID))).map
          Row.id).contains i) = _
      rw [hpred]
    | FWD =>
      show (b :: bs).find? (fun i =>
        ((df.filter (fun r => decide (r.positions = Pos.FWD))).map
          Row.id).contains i) = _
      rw [hpred]

lemma sub_step_DEF (gw : Nat) (df : List Row) (st : SimState) (player : Nat)
    (hp : posOf df player = some Pos.DEF) :
    sub_step gw df st player =
      if st.d ≤ 3 then
        samePosSub gw df st player Pos.DEF (fun s => { s with d := s.d + 1 })
      else anyPosSub gw df st player := by
  unfold sub_step
  simp only [hp]
  cases hk : (if st.d ≤ 3 then
      samePosSub gw df st player Pos.DEF (fun s => { s with d := s.d + 1 })
    else anyPosSub gw df st player).keeper <;> simp [hk]

lemma sub_step_MID (gw : Nat) (df : List Row) (st : SimState) (player : Nat)
    (hp : posOf df player = some Pos.MID) :
    sub_step gw df st player =
      if st.m ≤ 2 then
        samePosSub gw df st player Pos.MID (fun s => { s with m := s.m + 1 })
      else anyPosSub gw df st player := by
  unfold sub_step
  simp only [hp]
  cases hk : (if st.m ≤ 2 then
      samePosSub gw df st player Pos.MID (fun s => { s with m := s.m + 1 })
    else anyPosSub gw df st player).keeper <;> simp [hk]

lemma samePosSub_found (gw : Nat) (df : List Row) (st : SimState)
    (player : Nat) (p : Pos) (bump : SimState → SimState) (s : Nat)
    (h : get_bench_player df st.bench_ids (some p) = some s) :
    samePosSub gw df st player p bump =
      bump { st with
        bench_ids := st.bench_ids.erase s
        points := st.points + ptsOf df gw s
        subs := st.subs ++ [⟨player, s⟩] } := by
  unfold samePosSub
  rw [h]

lemma samePosSub_none (gw : Nat) (df : List Row) (st : SimState)
    (player : Nat) (p : Pos) (bump : SimState → SimState)
    (h : get_bench_player df st.bench_ids (some p) = none) :
    samePosSub gw df st player p bump = st := by
  unfold samePosSub
  rw [h]

lemma anyPosSub_nil (gw : Nat) (df : List Row) (st : SimState) (player : Nat)
    (h : st.bench_ids = []) :
    anyPosSub gw df st player = st := by
  unfold anyPosSub get_bench_player
  rw [h]

lemma anyPosSub_cons (gw : Nat) (df : List Row) (st : SimState) (player : Nat)
    (s : Nat) (rest : List Nat) (h : st.bench_ids = s :: rest) :
    anyPosSub gw df st player =
      (match posOf df s with
       | some Pos.DEF =>
         { st with
           bench_ids := st.bench_ids.erase s
           points := st.points + ptsOf df gw s
           subs := st.subs ++ [⟨player, s⟩]
           d := st.d + 1 }
       | some Pos.MID =>
         { st with
           bench_ids := st.bench_ids.erase s
           points := st.points + ptsOf df gw s
           subs := st.subs ++ [⟨player, s⟩]
           m := st.m + 1 }
       | some Pos.FWD =>
         { st with
           bench_ids := st.bench_ids.erase s
           points := st.points + ptsOf df gw s
           subs := st.subs ++ [⟨player, s⟩]
           f := st.f + 1 }
       | _ =>
         { st with
           bench_ids := st.bench_ids.erase s
           points := st.points + ptsOf df gw s
           subs := st.subs ++ [⟨player, s⟩] }) := by
  unfold anyPosSub
  have hg : get_bench_player df st.bench_ids none = some s := by
    unfold get_bench_player
    rw [h]
  rw [hg]

/-- C2: the outfield substitution policy of the gameweek scorer.  For a
non-featured DEF (resp. MID) being processed, while the tracked starting
count of that position is at or below its floor (DEF ≤ 3, MID ≤ 2) the
substitute is the FIRST unconsumed bench player of the SAME position — and
if no such bench player exists nothing is substituted, so the player
contributes 0; once above the floor the substitute is the first unconsumed
bench player of ANY position and the DEF/MID/FWD counters are updated
according to the substitute's actual position (an exhausted bench again
leaves the state unchanged).  On the concrete fixture dfC2 — starting DEF
count exactly 3, the starting DEF id 2 not featuring, bench order holding a
MID (id 13) before a DEF (id 14) — the scorer substitutes the bench DEF 14,
not the bench MID 13. -/
theorem c2_outfield_substitution_policy (gw : Nat) (df : List Row)
    (st : SimState) (player : Nat) (hnd : idsNodup df) :
    (∀ s, posOf df player = some Pos.DEF → st.d ≤ 3 →
      st.bench_ids.find? (fun i => decide (posOf df i = some Pos.DEF)) =
        some s →
      sub_step gw df st player =
        { st with
          bench_ids := st.bench_ids.erase s
          points := st.points + ptsOf df gw s
          subs := st.subs ++ [⟨player, s⟩]
          d := st.d + 1 }) ∧
    (posOf df player = some Pos.DEF → st.d ≤ 3 →
      st.bench_ids.find? (fun i => decide (posOf df i = some Pos.DEF)) =
        none →
      sub_step gw df st player = st) ∧
    (∀ s rest, posOf df player = some Pos.DEF → 3 < st.d →
      st.bench_ids = s :: rest →
      (sub_step gw df st player).points = st.points + ptsOf df gw s ∧
      (sub_step gw df st player).bench_ids = rest ∧
      (sub_step gw df st player).keeper = st.keeper ∧
      (sub_step gw df st player).subs = st.subs ++ [⟨player, s⟩] ∧
      (posOf df s = some Pos.DEF →
        (sub_step gw df st player).d = st.d + 1 ∧
        (sub_step gw df st player).m = st.m ∧
        (sub_step gw df st player).f = st.f) ∧
      (posOf df s = some Pos.MID →
        (sub_step gw df st player).d = st.d ∧
        (sub_step gw df st player).m = st.m + 1 ∧
        (sub_step gw df st player).f = st.f) ∧
      (posOf df s = some Pos.FWD →
        (sub_step gw df st player).d = st.d ∧
        (sub_step gw df st player).m = st.m ∧
        (sub_step gw df st player).f = st.f + 1)) ∧
    (posOf df player = some Pos.DEF → 3 < st.d → st.bench_ids = [] →
      sub_step gw df st player = st) ∧
    (∀ s, posOf df player = some Pos.MID → st.m ≤ 2 →
      st.bench_ids.find? (fun i => decide (posOf df i = some Pos.MID)) =
        some s →
      sub_step gw df st player =
        { st with
          bench_ids := st.bench_ids.erase s
          points := st.points + ptsOf df gw s
          subs := st.subs ++ [⟨player, s⟩]
          m := st.m + 1 }) ∧
    (posOf df player = some Pos.MID → st.m ≤ 2 →
      st.bench_ids.find? (fun i => decide (posOf df i = some Pos.MID)) =
        none →
      sub_step gw df st player = st) ∧
    (∀ s rest, posOf df player = some Pos.MID → 2 < st.m →
      st.bench_ids = s :: rest →
      (sub_step gw df st player).points = st.points + ptsOf df gw s ∧
      (sub_step gw df st player).bench_ids = rest ∧
      (sub_step gw df st player).keeper = st.keeper ∧
      (sub_step gw df st player).subs = st.subs ++ [⟨player, s⟩] ∧
      (posOf df s = some Pos.DEF →
        (sub_step gw df st player).d = st.d + 1 ∧
        (sub_step gw df st player).m = st.m ∧
        (sub_step gw df st player).f = st.f) ∧
      (posOf df s = some Pos.MID →
        (sub_step gw df st player).d = st.d ∧
        (sub_step gw df st player).m = st.m + 1 ∧
        (sub_step gw df st player).f = st.f) ∧
      (posOf df s = some Pos.FWD →
        (sub_step gw df st player).d = st.d ∧
        (sub_step gw df st player).m = st.m ∧
        (sub_step gw df st player).f = st.f + 1)) ∧
    (posOf df player = some Pos.MID → 2 < st.m → st.bench_ids = [] →
      sub_step gw df st player = st) ∧
    single_gw_simulation 1 1 dfC2 =
      some (GwOutcome.played ⟨13, [⟨2, 14⟩], true, false⟩) := by
  refine ⟨?_, ?_, ?_, ?_, ?_, ?_, ?_, ?_, by decide⟩
  · intro s h1 h2 h3
    have hg : get_bench_player df st.bench_ids (some Pos.DEF) = some s := by
      rw [get_bench_player_eq_find? hnd st.bench_ids Pos.DEF (by simp)]
      exact h3
    rw [sub_step_DEF gw df st player h1, if_pos h2,
      samePosSub_found gw df st player Pos.DEF _ s hg]
  · intro h1 h2 h3
    have hg : get_bench_player df st.bench_ids (some Pos.DEF) = none := by
      rw [get_bench_player_eq_find? hnd st.bench_ids Pos.DEF (by simp)]
      exact h3
    rw [sub_step_DEF gw df st player h1, if_pos h2,
      samePosSub_none gw df st player Pos.DEF _ hg]
  · intro s rest h1 h2 h3
    rw [sub_step_DEF gw df st player h1, if_neg (by omega),
      anyPosSub_cons gw df st player s rest h3]
    have he : st.bench_ids.erase s = rest := by
      rw [h3]
      exact List.erase_cons_head s rest
    cases hs : posOf df s with
    | none =>
      refine ⟨rfl, he, rfl, rfl, ?_, ?_, ?_⟩ <;>
        (intro hcon; simp at hcon)
    | some sp =>
      cases sp with
      | GK =>
        refine ⟨rfl, he, rfl, rfl, ?_, ?_, ?_⟩ <;>
          (intro hcon; simp at hcon)
      | DEF =>
        refine ⟨rfl, he, rfl, rfl, fun _ => ⟨rfl, rfl, rfl⟩, ?_, ?_⟩ <;>
          (intro hcon; simp at hcon)
      | MID =>
        refine ⟨rfl, he, rfl, rfl, ?_, fun _ => ⟨rfl, rfl, rfl⟩, ?_⟩ <;>
          (intro hcon; simp at hcon)
      | FWD =>
        refine ⟨rfl, he, rfl, rfl, ?_, ?_, fun _ => ⟨rfl, rfl, rfl⟩⟩ <;>
          (intro hcon; simp at hcon)
  · intro h1 h2 h3
    rw [sub_step_DEF gw df st player h1, if_neg (by omega),
      anyPosSub_nil gw df st player h3]
  · intro s h1 h2 h3
    have hg : get_bench_player df st.bench_ids (some Pos.MID) = some s := by
      rw [get_bench_player_eq_find? hnd st.bench_ids Pos.MID (by simp)]
      exact h3
    rw [sub_step_MID gw df st player h1, if_pos h2,
      samePosSub_found gw df st player Pos.MID _ s hg]
  · intro h1 h2 h3
    have hg : get_bench_player df st.bench_ids (some Pos.MID) = none := by
      rw [get_bench_player_eq_find? hnd st.bench_ids Pos.MID (by simp)]
      exact h3
    rw [sub_step_MID gw df st player h1, if_pos h2,
      samePosSub_none gw df st player Pos.MID _ hg]
  · intro s rest h1 h2 h3
    rw [sub_step_MID gw df st player h1, if_neg (by omega),
      anyPosSub_cons gw df st player s rest h3]
    have he : st.bench_ids.erase s = rest := by
      rw [h3]
      exact List.erase_cons_head s rest
    cases hs : posOf df s with
    | none =>
      refine ⟨rfl, he, rfl, rfl, ?_, ?_, ?_⟩ <;>
        (intro hcon; simp at hcon)
    | some sp =>
      cases sp with
      | GK =>
        refine ⟨rfl, he, rfl, rfl, ?_, ?_, ?_⟩ <;>
          (intro hcon; simp at hcon)
      | DEF =>
        refine ⟨rfl, he, rfl, rfl, fun _ => ⟨rfl, rfl, rfl⟩, ?_, ?_⟩ <;>
          (intro hcon; simp at hcon)
      | MID =>
        refine ⟨rfl, he, rfl, rfl, ?_, fun _ => ⟨rfl, rfl, rfl⟩, ?_⟩ <;>
          (intro hcon; simp at hcon)
      | FWD =>
        refine ⟨rfl, he, rfl, rfl, ?_, ?_, fun _ => ⟨rfl, rfl, rfl⟩⟩ <;>
          (intro hcon; simp at hcon)
  · intro h1 h2 h3
    rw [sub_step_MID gw df st player h1, if_neg (by omega),
      anyPosSub_nil gw df st player h3]

/-- Witness for C2 at the concrete frame dfC2, state stC2w and the
non-featuring DEF id 2. -/
theorem c2_outfield_substitution_policy_witness :
    idsNodup dfC2 ∧
    ((∀ s, posOf dfC2 2 = some Pos.DEF → stC2w.d ≤ 3 →
      stC2w.bench_ids.find? (fun i => decide (posOf dfC2 i = some Pos.DEF)) =
        some s →
      sub_step 1 dfC2 stC2w 2 =
        { stC2w with
          bench_ids := stC2w.bench_ids.erase s
          points := stC2w.points + ptsOf dfC2 1 s
          subs := stC2w.subs ++ [⟨2, s⟩]
          d := stC2w.d + 1 }) ∧
    (posOf dfC2 2 = some Pos.DEF → stC2w.d ≤ 3 →
      stC2w.bench_ids.find? (fun i => decide (posOf dfC2 i = some Pos.DEF)) =
        none →
      sub_step 1 dfC2 stC2w 2 = stC2w) ∧
    (∀ s rest, posOf dfC2 2 = some Pos.DEF → 3 < stC2w.d →
      stC2w.bench_ids = s :: rest →
      (sub_step 1 dfC2 stC2w 2).points = stC2w.points + ptsOf dfC2 1 s ∧
      (sub_step 1 dfC2 stC2w 2).bench_ids = rest ∧
      (sub_step 1 dfC2 stC2w 2).keeper = stC2w.keeper ∧
      (sub_step 1 dfC2 stC2w 2).subs = stC2w.subs ++ [⟨2, s⟩] ∧
      (posOf dfC2 s = some Pos.DEF →
        (sub_step 1 dfC2 stC2w 2).d = stC2w.d + 1 ∧
        (sub_step 1 dfC2 stC2w 2).m = stC2w.m ∧
        (sub_step 1 dfC2 stC2w 2).f = stC2w.f) ∧
      (posOf dfC2 s = some Pos.MID →
        (sub_step 1 dfC2 stC2w 2).d = stC2w.d ∧
        (sub_step 1 dfC2 stC2w 2).m = stC2w.m + 1 ∧
        (sub_step 1 dfC2 stC2w 2).f = stC2w.f) ∧
      (posOf dfC2 s = some Pos.FWD →
        (sub_step 1 dfC2 stC2w 2).d = stC2w.d ∧
        (sub_step 1 dfC2 stC2w 2).m = stC2w.m ∧
        (sub_step 1 dfC2 stC2w 2).f = stC2w.f + 1)) ∧
    (posOf dfC2 2 = some Pos.DEF → 3 < stC2w.d → stC2w.bench_ids = [] →
      sub_step 1 dfC2 stC2w 2 = stC2w) ∧
    (∀ s, posOf dfC2 2 = some Pos.MID → stC2w.m ≤ 2 →
      stC2w.bench_ids.find? (fun i => decide (posOf dfC2 i = some Pos.MID)) =
        some s →
      sub_step 1 dfC2 stC2w 2 =
        { stC2w with
          bench_ids := stC2w.bench_ids.erase s
          points := stC2w.points + ptsOf dfC2 1 s
          subs := stC2w.subs ++ [⟨2, s⟩]
          m := stC2w.m + 1 }) ∧
    (posOf dfC2 2 = some Pos.MID → stC2w.m ≤ 2 →
      stC2w.bench_ids.find? (fun i => decide (posOf dfC2 i = some Pos.MID)) =
        none →
      sub_step 1 dfC2 stC2w 2 = stC2w) ∧
    (∀ s rest, posOf dfC2 2 = some Pos.MID → 2 < stC2w.m →
      stC2w.bench_ids = s :: rest →
      (sub_step 1 dfC2 stC2w 2).points = stC2w.points + ptsOf dfC2 1 s ∧
      (sub_step 1 dfC2 stC2w 2).bench_ids = rest ∧
      (sub_step 1 dfC2 stC2w 2).keeper = stC2w.keeper ∧
      (sub_step 1 dfC2 stC2w 2).subs = stC2w.subs ++ [⟨2, s⟩] ∧
      (posOf dfC2 s = some Pos.DEF →
        (sub_step 1 dfC2 stC2w 2).d = stC2w.d + 1 ∧
        (sub_step 1 dfC2 stC2w 2).m = stC2w.m ∧
        (sub_step 1 dfC2 stC2w 2).f = stC2w.f) ∧
      (posOf dfC2 s = some Pos.MID →
        (sub_step 1 dfC2 stC2w 2).d = stC2w.d ∧
        (sub_step 1 dfC2 stC2w 2).m = stC2w.m + 1 ∧
        (sub_step 1 dfC2 stC2w 2).f = stC2w.f) ∧
      (posOf dfC2 s = some Pos.FWD →
        (sub_step 1 dfC2 stC2w 2).d = stC2w.d ∧
        (sub_step 1 dfC2 stC2w 2).m = stC2w.m ∧
        (sub_step 1 dfC2 stC2w 2).f = stC2w.f + 1)) ∧
    (posOf dfC2 2 = some Pos.MID → 2 < stC2w.m → stC2w.bench_ids = [] →
      sub_step 1 dfC2 stC2w 2 = stC2w) ∧
    single_gw_simulation 1 1 dfC2 =
      some (GwOutcome.played ⟨13, [⟨2, 14⟩], true, false⟩)) :=
  ⟨by decide, c2_outfield_substitution_policy 1 dfC2 stC2w 2 (by decide)⟩

lemma sub_step_FWD (gw : Nat) (df : List Row) (st : SimState) (player : Nat)
    (hp : posOf df player = some Pos.FWD) :
    sub_step gw df st player =
      if st.f ≤ 1 then
        samePosSub gw df st player Pos.FWD (fun s => { s with f := s.f + 1 })
      else anyPosSub gw df st player := by
  unfold sub_step
  simp only [hp]
  cases hk : (if st.f ≤ 1 then
      samePosSub gw df st player Pos.FWD (fun s => { s with f := s.f + 1 })
    else anyPosSub gw df st player).keeper <;> simp [hk]

lemma sub_step_posNone (gw : Nat) (df : List Row) (st : SimState)
    (player : Nat) (hp : posOf df player = none) :
    sub_step gw df st player = st := by
  unfold sub_step
  simp only [hp]
  cases hk : st.keeper <;> simp [hk]

lemma sub_step_GK_some (gw : Nat) (df : List Row) (st : SimState)
    (player k : Nat) (hp : posOf df player = some Pos.GK)
    (hk : st.keeper = some k) :
    sub_step gw df st player =
      { st with
        keeper := none
        points := st.points + ptsOf df gw k
        subs := st.subs ++ [⟨player, k⟩] } := by
  unfold sub_step
  simp only [hp]
  rw [hk]

lemma sub_step_GK_none (gw : Nat) (df : List Row) (st : SimState)
    (player : Nat) (hp : posOf df player = some Pos.GK)
    (hk : st.keeper = none) :
    sub_step gw df st player = st := by
  unfold sub_step
  simp only [hp]
  rw [hk]

lemma get_bench_player_mem {df : List Row} {bench : List Nat}
    {p : Option Pos} {s : Nat} (h : get_bench_player df bench p = some s) :
    s ∈ bench := by
  cases bench with
  | nil => simp [get_bench_player] at h
  | cons b bs =>
    cases p with
    | none =>
      simp only [get_bench_player] at h
      injection h with h
      rw [← h]
      exact List.mem_cons_self b bs
    | some pp =>
      cases pp with
      | GK => simp [get_bench_player] at h
      | DEF =>
        simp only [get_bench_player] at h
        exact List.mem_of_find?_eq_some h
      | MID =>
        simp only [get_bench_player] at h
        exact List.mem_of_find?_eq_some h
      | FWD =>
        simp only [get_bench_player] at h
        exact List.mem_of_find?_eq_some h

lemma sub_step_nonGK (gw : Nat) (df : List Row) (st : SimState) (player : Nat)
    (hp : ¬ posOf df player = some Pos.GK) :
    (sub_step gw df st player).keeper = st.keeper ∧
    (∀ x ∈ (sub_step gw df st player).bench_ids, x ∈ st.bench_ids) ∧
    ∃ tail, (sub_step gw df st player).subs = st.subs ++ tail ∧
      ∀ e ∈ tail, e.sub_in ∈ st.bench_ids ∧ e.sub_out = player := by
  have hsame : ∀ (p : Pos) (bump : SimState → SimState),
      (∀ s : SimState, (bump s).keeper = s.keeper) →
      (∀ s : SimState, (bump s).bench_ids = s.bench_ids) →
      (∀ s : SimState, (bump s).subs = s.subs) →
      (samePosSub gw df st player p bump).keeper = st.keeper ∧
      (∀ x ∈ (samePosSub gw df st player p bump).bench_ids,
        x ∈ st.bench_ids) ∧
      ∃ tail, (samePosSub gw df st player p bump).subs = st.subs ++ tail ∧
        ∀ e ∈ tail, e.sub_in ∈ st.bench_ids ∧ e.sub_out = player := by
    intro p bump hbk hbb hbs
    cases hg : get_bench_player df st.bench_ids (some p) with
    | none =>
      rw [samePosSub_none gw df st player p bump hg]
      exact ⟨rfl, fun x hx => hx, [], by simp, by simp⟩
    | some s =>
      rw [samePosSub_found gw df st player p bump s hg]
      refine ⟨by rw [hbk], ?_, [⟨player, s⟩], by rw [hbs], ?_⟩
      · intro x hx
        rw [hbb] at hx
        exact List.mem_of_mem_erase hx
      · intro e he
        rcases List.mem_singleton.1 he with rfl
        exact ⟨get_bench_player_mem hg, rfl⟩
  have hany :
      (anyPosSub gw df st player).keeper = st.keeper ∧
      (∀ x ∈ (anyPosSub gw df st player).bench_ids, x ∈ st.bench_ids) ∧
      ∃ tail, (anyPosSub gw df st player).subs = st.subs ++ tail ∧
        ∀ e ∈ tail, e.sub_in ∈ st.bench_ids ∧ e.sub_out = player := by
    rcases hb : st.bench_ids with - | ⟨s, rest⟩
    · rw [anyPosSub_nil gw df st player hb]
      exact ⟨rfl, fun x hx => hb ▸ hx, [], by simp, by simp⟩
    · rw [anyPosSub_cons gw df st player s rest hb]
      have hsmem : s ∈ st.bench_ids := by
        rw [hb]
        exact List.mem_cons_self s rest
      cases hs : posOf df s with
      | none =>
        dsimp only
        refine ⟨rfl, ?_, [⟨player, s⟩], rfl, ?_⟩
        · intro x hx
          exact hb ▸ List.mem_of_mem_erase hx
        · intro e he
          rcases List.mem_singleton.1 he with rfl
          exact ⟨hb ▸ hsmem, rfl⟩
      | some sp =>
        cases sp <;>
        · dsimp only
          refine ⟨rfl, ?_, [⟨player, s⟩], rfl, ?_⟩
          · intro x hx
            exact hb ▸ List.mem_of_mem_erase hx
          · intro e he
            rcases List.mem_singleton.1 he with rfl
            exact ⟨hb ▸ hsmem, rfl⟩
  cases hpp : posOf df player with
  | none =>
    rw [sub_step_posNone gw df st player hpp]
    exact ⟨rfl, fun x hx => hx, [], by simp, by simp⟩
  | some p =>
    cases p with
    | GK => exact absurd hpp hp
    | DEF =>
      rw [sub_step_DEF gw df st player hpp]
      by_cases hd : st.d ≤ 3
      · rw [if_pos hd]
        exact hsame Pos.DEF _ (fun s => rfl) (fun s => rfl) (fun s => rfl)
      · rw [if_neg hd]
        exact hany
    | MID =>
      rw [sub_step_MID gw df st player hpp]
      by_cases hm : st.m ≤ 2
      · rw [if_pos hm]
        exact hsame Pos.MID _ (fun s => rfl) (fun s => rfl) (fun s => rfl)
      · rw [if_neg hm]
        exact hany
    | FWD =>
      rw [sub_step_FWD gw df st player hpp]
      by_cases hf : st.f ≤ 1
      · rw [if_pos hf]
        exact hsame Pos.FWD _ (fun s => rfl) (fun s => rfl) (fun s => rfl)
      · rw [if_neg hf]
        exact hany

lemma fold_no_gk (gw : Nat) (df : List Row) :
    ∀ (l : List Nat) (st : SimState),
      (∀ i ∈ l, ¬ posOf df i = some Pos.GK) →
      (l.foldl (sub_step gw df) st).keeper = st.keeper ∧
      (∀ x ∈ (l.foldl (sub_step gw df) st).bench_ids, x ∈ st.bench_ids) ∧
      ∃ tail, (l.foldl (sub_step gw df) st).subs = st.subs ++ tail ∧
        ∀ e ∈ tail, e.sub_in ∈ st.bench_ids ∧ e.sub_out ∈ l := by
  intro l
  induction l with
  | nil =>
    intro st _
    exact ⟨rfl, fun x hx => hx, [], by simp, by simp⟩
  | cons a as ih =>
    intro st h
    simp only [List.foldl_cons]
    obtain ⟨hk1, hb1, t1, hs1, he1⟩ :=
      sub_step_nonGK gw df st a (h a (List.mem_cons_self a as))
    obtain ⟨hk2, hb2, t2, hs2, he2⟩ :=
      ih (sub_step gw df st a) (fun i hi => h i (List.mem_cons_of_mem a hi))
    refine ⟨by rw [hk2, hk1], fun x hx => hb1 x (hb2 x hx),
      t1 ++ t2, ?_, ?_⟩
    · rw [hs2, hs1, List.append_assoc]
    · intro e he
      rcases List.mem_append.1 he with h1 | h2
      · obtain ⟨hin, hout⟩ := he1 e h1
        exact ⟨hin, by rw [hout]; exact List.mem_cons_self a as⟩
      · obtain ⟨hin, hout⟩ := he2 e h2
        exact ⟨hb1 _ hin, List.mem_cons_of_mem a hout⟩

lemma eq_of_id_eq_nodup {df : List Row} (hnd : idsNodup df) {r1 r2 : Row}
    (h1 : r1 ∈ df) (h2 : r2 ∈ df) (he : r1.id = r2.id) : r1 = r2 := by
  have f1 := find?_eq_of_mem_nodup hnd h1
  have f2 := find?_eq_of_mem_nodup hnd h2
  rw [he] at f1
  rw [f1] at f2
  injection f2 with f2

lemma mem_notPlayed_iff (gw : Nat) (df : List Row) (i : Nat) :
    i ∈ notPlayed gw df ↔
      ∃ r ∈ df, r.in_lineup = true ∧ r.gw_minutes gw = 0 ∧ r.id = i := by
  unfold notPlayed
  constructor
  · intro h
    obtain ⟨r, hr, hid⟩ := List.mem_map.1 h
    obtain ⟨hr1, hr2⟩ := List.mem_filter.1 hr
    obtain ⟨hr0, hr1'⟩ := List.mem_filter.1 hr1
    refine ⟨r, hr0, hr1', ?_, hid⟩
    have := of_decide_eq_true hr2
    omega
  · rintro ⟨r, hr, hl, hm, hid⟩
    refine List.mem_map.2 ⟨r, ?_, hid⟩
    refine List.mem_filter.2 ⟨List.mem_filter.2 ⟨hr, hl⟩, ?_⟩
    exact decide_eq_true (by omega)

lemma notPlayed_nodup {gw : Nat} {df : List Row} (hnd : idsNodup df) :
    (notPlayed gw df).Nodup := by
  unfold notPlayed
  have hsub : List.Sublist ((df.filter (fun r => r.in_lineup)).filter
      (fun r => ¬ r.gw_minutes gw > 0)) df :=
    List.Sublist.trans (List.filter_sublist _) (List.filter_sublist _)
  exact List.Nodup.sublist (List.Sublist.map Row.id hsub) hnd

lemma single_gw_reduce (current_gw gw : Nat) (df : List Row)
    (hgw : gw ≤ current_gw) (k : Nat) (ks : List Nat) (cap vi : Row)
    (hk : (df.filter (fun r => r.on_bench && decide (r.positions = Pos.GK))).map
        Row.id = k :: ks)
    (hcap : df.find? (fun r => r.is_captain) = some cap)
    (hvi : df.find? (fun r => r.is_vice_captain) = some vi) :
    single_gw_simulation current_gw gw df = some (GwOutcome.played
      { points := ((notPlayed gw df).foldl (sub_step gw df)
          (initState df k (basePoints gw df + captaincy_bonus gw cap vi))).points
        subs_made := ((notPlayed gw df).foldl (sub_step gw df)
          (initState df k (basePoints gw df + captaincy_bonus gw cap vi))).subs
        did_captain_play := cap.gw_minutes gw > 0
        vice_play_in_captains_place :=
          ¬ cap.gw_minutes gw > 0 && vi.gw_minutes gw > 0 }) := by
  unfold single_gw_simulation
  rw [if_neg (by omega), hk, hcap, hvi]

/-- C7: in every playable gameweek in which the (unique) starting goalkeeper
did not feature, the bench goalkeeper is substituted in unconditionally — no
formation check and no condition on the bench goalkeeper's minutes — giving
exactly one substitution entry whose incoming player is the bench
goalkeeper; that entry swaps out the starting goalkeeper, and the bench
goalkeeper is never used to replace an outfield player (every entry whose
incoming player is the bench goalkeeper has the starting goalkeeper as the
outgoing player, and conversely). -/
theorem c7_goalkeeper_substitution (current_gw gw : Nat) (df : List Row)
    (hnd : idsNodup df) (hgw : gw ≤ current_gw) (grow krow : Row)
    (hg : df.filter (fun r => r.in_lineup && decide (r.positions = Pos.GK)) =
      [grow])
    (hgm : grow.gw_minutes gw = 0)
    (hkrow : df.filter (fun r => r.on_bench && decide (r.positions = Pos.GK)) =
      [krow])
    (cap vi : Row)
    (hcap : df.find? (fun r => r.is_captain) = some cap)
    (hvi : df.find? (fun r => r.is_vice_captain) = some vi) :
    ∃ r, single_gw_simulation current_gw gw df = some (GwOutcome.played r) ∧
      r.subs_made.countP (fun e => decide (e.sub_in = krow.id)) = 1 ∧
      (∀ e ∈ r.subs_made, e.sub_in = krow.id → e.sub_out = grow.id) ∧
      (∀ e ∈ r.subs_made, e.sub_out = grow.id → e.sub_in = krow.id) := by
  have hgrow_f : grow ∈
      df.filter (fun r => r.in_lineup && decide (r.positions = Pos.GK)) := by
    rw [hg]
    exact List.mem_cons_self _ _
  have hgrow_df : grow ∈ df := List.mem_of_mem_filter hgrow_f
  have hgrow_pred := List.of_mem_filter hgrow_f
  simp only [Bool.and_eq_true, decide_eq_true_eq] at hgrow_pred
  have hkrow_f : krow ∈
      df.filter (fun r => r.on_bench && decide (r.positions = Pos.GK)) := by
    rw [hkrow]
    exact List.mem_cons_self _ _
  have hkrow_df : krow ∈ df := List.mem_of_mem_filter hkrow_f
  have hkrow_pred := List.of_mem_filter hkrow_f
  simp only [Bool.and_eq_true, decide_eq_true_eq] at hkrow_pred
  have hpos_g : posOf df grow.id = some Pos.GK := by
    rw [posOf_of_mem_nodup hnd hgrow_df, hgrow_pred.2]
  have hknb : krow.id ∉
      (df.filter (fun r => r.on_bench && decide (¬ r.positions = Pos.GK))).map
        Row.id := by
    intro hmem
    obtain ⟨r', hr'f, hr'id⟩ := List.mem_map.1 hmem
    have hr'df : r' ∈ df := List.mem_of_mem_filter hr'f
    have hr'pred := List.of_mem_filter hr'f
    simp only [Bool.and_eq_true, decide_eq_true_eq] at hr'pred
    have heq : r' = krow := eq_of_id_eq_nodup hnd hr'df hkrow_df hr'id
    rw [heq, hkrow_pred.2] at hr'pred
    exact hr'pred.2 rfl
  have hgmem : grow.id ∈ notPlayed gw df :=
    (mem_notPlayed_iff gw df grow.id).2 ⟨grow, hgrow_df, hgrow_pred.1, hgm, rfl⟩
  have hnpnd : (notPlayed gw df).Nodup := notPlayed_nodup hnd
  have huniq : ∀ i ∈ notPlayed gw df, posOf df i = some Pos.GK →
      i = grow.id := by
    intro i hi hposi
    obtain ⟨r, hr, hrl, hrm, hrid⟩ := (mem_notPlayed_iff gw df i).1 hi
    have hpr : posOf df i = some r.positions := by
      rw [← hrid]
      exact posOf_of_mem_nodup hnd hr
    rw [hpr] at hposi
    injection hposi with hposi
    have hrf : r ∈
        df.filter (fun r => r.in_lineup && decide (r.positions = Pos.GK)) := by
      refine List.mem_filter.2 ⟨hr, ?_⟩
      simp [hrl, hposi]
    rw [hg] at hrf
    rcases List.mem_singleton.1 hrf with rfl
    exact hrid.symm
  obtain ⟨l1, l2, hsplit⟩ := List.append_of_mem hgmem
  have hnd12 : (l1 ++ grow.id :: l2).Nodup := hsplit ▸ hnpnd
  have hg1 : grow.id ∉ l1 := by
    intro hmem
    exact (List.nodup_append.1 hnd12).2.2 hmem (List.mem_cons_self _ _)
  have hg2 : grow.id ∉ l2 :=
    (List.nodup_cons.1 (List.nodup_append.1 hnd12).2.1).1
  have hno1 : ∀ i ∈ l1, ¬ posOf df i = some Pos.GK := by
    intro i hi hcon
    have hin : i ∈ notPlayed gw df := by
      rw [hsplit]
      exact List.mem_append.2 (Or.inl hi)
    have := huniq i hin hcon
    rw [this] at hi
    exact hg1 hi
  have hno2 : ∀ i ∈ l2, ¬ posOf df i = some Pos.GK := by
    intro i hi hcon
    have hin : i ∈ notPlayed gw df := by
      rw [hsplit]
      exact List.mem_append.2 (Or.inr (List.mem_cons_of_mem _ hi))
    have := huniq i hin hcon
    rw [this] at hi
    exact hg2 hi
  have hkids : (df.filter (fun r => r.on_bench && decide (r.positions = Pos.GK))).map
      Row.id = krow.id :: [] := by
    rw [hkrow]
    rfl
  have hst0s : (initState df krow.id
      (basePoints gw df + captaincy_bonus gw cap vi)).subs = [] := rfl
  obtain ⟨hkA, hbA, t1, hsA, heA⟩ := fold_no_gk gw df l1
    (initState df krow.id (basePoints gw df + captaincy_bonus gw cap vi))
    hno1
  have hkA' : (l1.foldl (sub_step gw df)
      (initState df krow.id
        (basePoints gw df + captaincy_bonus gw cap vi))).keeper =
      some krow.id := by
    rw [hkA]
    rfl
  have hB := sub_step_GK_some gw df
    (l1.foldl (sub_step gw df)
      (initState df krow.id (basePoints gw df + captaincy_bonus gw cap vi)))
    grow.id krow.id hpos_g hkA'
  obtain ⟨hkC, hbC, t2, hsC, heC⟩ := fold_no_gk gw df l2
    (sub_step gw df
      (l1.foldl (sub_step gw df)
        (initState df krow.id (basePoints gw df + captaincy_bonus gw cap vi)))
      grow.id)
    hno2
  have hfold : (notPlayed gw df).foldl (sub_step gw df)
      (initState df krow.id (basePoints gw df + captaincy_bonus gw cap vi)) =
      l2.foldl (sub_step gw df)
        (sub_step gw df
          (l1.foldl (sub_step gw df)
            (initState df krow.id
              (basePoints gw df + captaincy_bonus gw cap vi)))
          grow.id) := by
    rw [hsplit, List.foldl_append, List.foldl_cons]
  have hsubs : ((notPlayed gw df).foldl (sub_step gw df)
      (initState df krow.id
        (basePoints gw df + captaincy_bonus gw cap vi))).subs =
      (t1 ++ [⟨grow.id, krow.id⟩]) ++ t2 := by
    rw [hfold, hsC, hB]
    dsimp only
    rw [hsA, hst0s]
    simp [List.append_assoc]
  have hBb : (sub_step gw df
      (l1.foldl (sub_step gw df)
        (initState df krow.id (basePoints gw df + captaincy_bonus gw cap vi)))
      grow.id).bench_ids =
      (l1.foldl (sub_step gw df)
        (initState df krow.id
          (basePoints gw df + captaincy_bonus gw cap vi))).bench_ids := by
    rw [hB]
  have ht1 : ∀ e ∈ t1, ¬ e.sub_in = krow.id ∧ ¬ e.sub_out = grow.id := by
    intro e he
    obtain ⟨hin, hout⟩ := heA e he
    constructor
    · intro hcon
      rw [hcon] at hin
      exact hknb hin
    · intro hcon
      rw [hcon] at hout
      exact hg1 hout
  have ht2 : ∀ e ∈ t2, ¬ e.sub_in = krow.id ∧ ¬ e.sub_out = grow.id := by
    intro e he
    obtain ⟨hin, hout⟩ := heC e he
    rw [hBb] at hin
    have hin2 := hbA _ hin
    constructor
    · intro hcon
      rw [hcon] at hin2
      exact hknb hin2
    · intro hcon
      rw [hcon] at hout
      exact hg2 hout
  rw [single_gw_reduce current_gw gw df hgw krow.id [] cap vi hkids hcap hvi]
  refine ⟨_, rfl, ?_, ?_, ?_⟩
  · dsimp only
    have hz1 : t1.countP (fun e => decide (e.sub_in = krow.id)) = 0 :=
      List.countP_eq_zero.2 (fun e he => by simp [(ht1 e he).1])
    have hz2 : t2.countP (fun e => decide (e.sub_in = krow.id)) = 0 :=
      List.countP_eq_zero.2 (fun e he => by simp [(ht2 e he).1])
    rw [hsubs, List.countP_append, List.countP_append, hz1, hz2]
    simp
  · dsimp only
    rw [hsubs]
    intro e he hein
    rcases List.mem_append.1 he with h12 | h2
    · rcases List.mem_append.1 h12 with h1 | hmid
      · exact absurd hein (ht1 e h1).1
      · rcases List.mem_singleton.1 hmid with rfl
        rfl
    · exact absurd hein (ht2 e h2).1
  · dsimp only
    rw [hsubs]
    intro e he heout
    rcases List.mem_append.1 he with h12 | h2
    · rcases List.mem_append.1 h12 with h1 | hmid
      · exact absurd heout (ht1 e h1).2
      · rcases List.mem_singleton.1 hmid with rfl
        rfl
    · exact absurd heout (ht2 e h2).2

/-- Witness for C7 on the concrete frame dfC7w: the starting goalkeeper
id 1 does not feature, the bench goalkeeper id 12 does. -/
theorem c7_goalkeeper_substitution_witness :
    idsNodup dfC7w ∧
    (1 : Nat) ≤ 1 ∧
    dfC7w.filter (fun r => r.in_lineup && decide (r.positions = Pos.GK)) =
      [mkRow 1 Pos.GK "A" 45 0 0 true false false false] ∧
    (mkRow 1 Pos.GK "A" 45 0 0 true false false false).gw_minutes 1 = 0 ∧
    dfC7w.filter (fun r => r.on_bench && decide (r.positions = Pos.GK)) =
      [mkRow 12 Pos.GK "L" 45 2 1 false true false false] ∧
    dfC7w.find? (fun r => r.is_captain) =
      some (mkRow 5 Pos.MID "E" 45 1 1 true false true false) ∧
    dfC7w.find? (fun r => r.is_vice_captain) =
      some (mkRow 6 Pos.MID "F" 45 1 1 true false false true) ∧
    (∃ r, single_gw_simulation 1 1 dfC7w = some (GwOutcome.played r) ∧
      r.subs_made.countP (fun e => decide (e.sub_in = 12)) = 1 ∧
      (∀ e ∈ r.subs_made, e.sub_in = 12 → e.sub_out = 1) ∧
      (∀ e ∈ r.subs_made, e.sub_out = 1 → e.sub_in = 12)) :=
  ⟨by decide, by decide, rfl, rfl, rfl, rfl, rfl,
    c7_goalkeeper_substitution 1 1 dfC7w (by decide) (by decide)
      (mkRow 1 Pos.GK "A" 45 0 0 true false false false)
      (mkRow 12 Pos.GK "L" 45 2 1 false true false false)
      rfl rfl rfl
      (mkRow 5 Pos.MID "E" 45 1 1 true false true false)
      (mkRow 6 Pos.MID "F" 45 1 1 true false false true) rfl rfl⟩
